import Mathlib

/-!
Verification of the t8code element-refinement algebra (triangle / tetrahedron /
prism / quad kernels) against its natural-language specification.

The source under scrutiny consists of
  * `t8_dtri_bits.c` (generic triangle/tetrahedron kernel, compiled once with
    `T8_DTRI_TO_DTET` undefined for 2D and once with it defined for 3D),
  * `t8_dprism_bits.c` (prism kernel, a tensor product triangle x line),
  * `t8_default_tri.c` and `t8_default_quad.c` (the polymorphic schemes).

The `#ifdef T8_DTRI_TO_DTET` dimension switch of the C source is embedded by
parametrising every simplex function over a connectivity record `T8Conn`
holding the dimension, the number of simplex types and the four class tables.
The triangle instance has `dim = 2`, the tetrahedron instance `dim = 3`.

The constant class tables (`t8_dtri_connectivity.c` / `t8_dtet_connectivity.c`)
are not part of the sources; they are modelled from the specification, which
requires them to describe the Bey refinement and to be mutually inverse so that
`linear_id` and `init_linear_id` agree (spec section 6.3 and section 8,
round-trip property).  The consistency is machine-checked below
(`t8_dtri_conn_good`, `t8_dtet_conn_good`).

Machine integers of the C source (`int32_t` coordinates, `uint64_t` ids) are
embedded as `Nat`; the 32-bit complement `~h` is written `4294967295 ^^^ h`,
which agrees with the C on all in-range values.
-/

namespace T8Code

/-- Maximum refinement level of the triangle/tet/prism/line kernels
(`T8_DTRI_MAXLEVEL`), 21 in this source tree. -/
def T8_DTRI_MAXLEVEL : Nat := 21

/-- `T8_DTRI_LEN (l) = 1 << (T8_DTRI_MAXLEVEL - l)`, the anchor grid length of
a level-`l` element. -/
def T8_DTRI_LEN (level : Nat) : Nat := 1 <<< (T8_DTRI_MAXLEVEL - level)

/-- The root length of the simplex grid, `1 << T8_DTRI_MAXLEVEL`. -/
def T8_DTRI_ROOT_LEN : Nat := 1 <<< T8_DTRI_MAXLEVEL

/-- The element record `t8_dtri_t` / `t8_dtet_t`: anchor coordinates, level and
type.  The `z` coordinate exists only in the 3D build of the C source; the 2D
instance keeps it constantly `0` (the 2D padding field `n`, which no modelled
operation initialises or reads, is dropped). -/
structure Dtri where
  level : Nat
  type : Nat
  x : Nat
  y : Nat
  z : Nat
deriving DecidableEq, Repr

/-- Row-major lookup in a constant integer matrix, `rows[i][j]` with 0 for
out-of-range accesses (the C contracts keep all accesses in range). -/
def tbl (rows : List (List Nat)) (i j : Nat) : Nat := (rows.getD i []).getD j 0

/-- Connectivity record: the dimension switch `T8_DTRI_TO_DTET` plus the class
tables used by the bit routines. -/
structure T8Conn where
  dim : Nat
  numTypes : Nat
  cid_type_to_parenttype : Nat → Nat → Nat
  type_cid_to_Iloc : Nat → Nat → Nat
  parenttype_Iloc_to_type : Nat → Nat → Nat
  parenttype_Iloc_to_cid : Nat → Nat → Nat

/-- Modelled from the spec: the 2D table `t8_dtri_cid_type_to_parenttype`
(`t8_dtri_connectivity.c` is not among the sources).  Entry `[cid][type]` is
the parent type of a triangle of the given type living in cube `cid`. -/
def t8_dtri_cid_type_to_parenttype : Nat → Nat → Nat :=
  tbl [[0, 1], [0, 0], [1, 1], [0, 1]]

/-- Modelled from the spec: the 2D table `t8_dtri_type_cid_to_Iloc`.  Entry
`[type][cid]` is the child-local (Morton) index. -/
def t8_dtri_type_cid_to_Iloc : Nat → Nat → Nat :=
  tbl [[0, 1, 1, 3], [0, 2, 2, 3]]

/-- Modelled from the spec: the 2D table `t8_dtri_parenttype_Iloc_to_type`. -/
def t8_dtri_parenttype_Iloc_to_type : Nat → Nat → Nat :=
  tbl [[0, 0, 1, 0], [1, 0, 1, 1]]

/-- Modelled from the spec: the 2D table `t8_dtri_parenttype_Iloc_to_cid`. -/
def t8_dtri_parenttype_Iloc_to_cid : Nat → Nat → Nat :=
  tbl [[0, 1, 1, 3], [0, 2, 2, 3]]

/-- Modelled from the spec: the 3D table `t8_dtet_cid_type_to_parenttype`. -/
def t8_dtet_cid_type_to_parenttype : Nat → Nat → Nat :=
  tbl [[0, 1, 2, 3, 4, 5],
       [0, 1, 1, 1, 0, 0],
       [2, 2, 2, 3, 3, 3],
       [1, 1, 2, 2, 2, 1],
       [5, 5, 4, 4, 4, 5],
       [0, 0, 0, 5, 5, 5],
       [4, 3, 3, 3, 4, 4],
       [0, 1, 2, 3, 4, 5]]

/-- Modelled from the spec: the 3D table `t8_dtet_type_cid_to_Iloc`. -/
def t8_dtet_type_cid_to_Iloc : Nat → Nat → Nat :=
  tbl [[0, 1, 1, 4, 1, 4, 4, 7],
       [0, 1, 2, 5, 2, 5, 4, 7],
       [0, 2, 3, 4, 1, 6, 5, 7],
       [0, 3, 1, 5, 2, 4, 6, 7],
       [0, 2, 2, 6, 3, 5, 5, 7],
       [0, 3, 3, 6, 3, 6, 6, 7]]

/-- Modelled from the spec: the 3D table `t8_dtet_parenttype_Iloc_to_type`. -/
def t8_dtet_parenttype_Iloc_to_type : Nat → Nat → Nat :=
  tbl [[0, 0, 4, 5, 0, 1, 2, 0],
       [1, 1, 2, 3, 0, 1, 5, 1],
       [2, 0, 1, 2, 2, 3, 4, 2],
       [3, 3, 4, 5, 1, 2, 3, 3],
       [4, 2, 3, 4, 0, 4, 5, 4],
       [5, 0, 1, 5, 3, 4, 5, 5]]

/-- Modelled from the spec: the 3D table `t8_dtet_parenttype_Iloc_to_cid`. -/
def t8_dtet_parenttype_Iloc_to_cid : Nat → Nat → Nat :=
  tbl [[0, 1, 1, 1, 5, 5, 5, 7],
       [0, 1, 1, 1, 3, 3, 3, 7],
       [0, 2, 2, 2, 3, 3, 3, 7],
       [0, 2, 2, 2, 6, 6, 6, 7],
       [0, 4, 4, 4, 6, 6, 6, 7],
       [0, 4, 4, 4, 5, 5, 5, 7]]

/-- The triangle build of the kernel (`T8_DTRI_TO_DTET` undefined). -/
def t8_dtri_conn : T8Conn :=
  { dim := 2
    numTypes := 2
    cid_type_to_parenttype := t8_dtri_cid_type_to_parenttype
    type_cid_to_Iloc := t8_dtri_type_cid_to_Iloc
    parenttype_Iloc_to_type := t8_dtri_parenttype_Iloc_to_type
    parenttype_Iloc_to_cid := t8_dtri_parenttype_Iloc_to_cid }

/-- The tetrahedron build of the kernel (`T8_DTRI_TO_DTET` defined). -/
def t8_dtet_conn : T8Conn :=
  { dim := 3
    numTypes := 6
    cid_type_to_parenttype := t8_dtet_cid_type_to_parenttype
    type_cid_to_Iloc := t8_dtet_type_cid_to_Iloc
    parenttype_Iloc_to_type := t8_dtet_parenttype_Iloc_to_type
    parenttype_Iloc_to_cid := t8_dtet_parenttype_Iloc_to_cid }

/-- Embedding of `compute_cubeid` from `t8_dtri_bits.c`: the cube-id of `t`'s
ancestor of the given level, formed from bit `h` of each coordinate; 0 at
level 0. -/
def compute_cubeid (c : T8Conn) (t : Dtri) (level : Nat) : Nat :=
  let h := T8_DTRI_LEN level
  if level = 0 then 0
  else
    (if t.x &&& h ≠ 0 then 1 else 0) |||
    (if t.y &&& h ≠ 0 then 2 else 0) |||
    (if c.dim = 3 then (if t.z &&& h ≠ 0 then 4 else 0) else 0)

/-- Embedding of `compute_type` from `t8_dtri_bits.c`.  The C source iterates
`for (i = tlevel; i < level; i++)`, which for the contractual inputs
`level < tlevel` executes zero times; the (empty for such inputs) loop is
embedded verbatim via `List.range'`. -/
def compute_type (c : T8Conn) (t : Dtri) (level : Nat) : Nat :=
  if level = t.level then t.type
  else if level = 0 then 0
  else
    (List.range' t.level (level - t.level)).foldl
      (fun ty i => c.cid_type_to_parenttype (compute_cubeid c t i) ty) t.type

/-- The type of `t`'s ancestor `k` levels above `t`, obtained by iterating
`cid_type_to_parenttype` upward (one step per level). -/
def type_at_aux (c : T8Conn) (t : Dtri) : Nat → Nat
  | 0 => t.type
  | k + 1 => c.cid_type_to_parenttype (compute_cubeid c t (t.level - k)) (type_at_aux c t k)

/-- The specification's `type_at(t, l)` (spec section 4.1): the type `t` would
have at level `l ≤ t.level`, computed by walking upward with
`cid_type_to_parenttype` from level `t.level` down to `l`. -/
def type_at_spec (c : T8Conn) (t : Dtri) (level : Nat) : Nat :=
  type_at_aux c t (t.level - level)

/-- Embedding of `t8_dtri_parent` / `t8_dtet_parent`: clear the bit `h` of each
coordinate, look the type up in `cid_type_to_parenttype`, decrement the level.
`t->x & ~h` on `int32_t` is embedded as `&&& (4294967295 ^^^ h)`. -/
def t8_dtri_parent (c : T8Conn) (t : Dtri) : Dtri :=
  let h := T8_DTRI_LEN t.level
  let cid := compute_cubeid c t t.level
  { level := t.level - 1
    type := c.cid_type_to_parenttype cid t.type
    x := t.x &&& (4294967295 ^^^ h)
    y := t.y &&& (4294967295 ^^^ h)
    z := if c.dim = 3 then t.z &&& (4294967295 ^^^ h) else t.z }

/-- Embedding of the 2D branch of `t8_dtri_ancestor`: mask the low bits of the
coordinates; the type is 0 or 1 according to the sign of `delta_x - delta_y`,
with `t`'s type as tie-breaker. -/
def t8_dtri_ancestor (t : Dtri) (level : Nat) : Dtri :=
  let delta_x := t.x &&& (T8_DTRI_LEN level - 1)
  let delta_y := t.y &&& (T8_DTRI_LEN level - 1)
  let ax := t.x &&& (4294967295 ^^^ (T8_DTRI_LEN level - 1))
  let ay := t.y &&& (4294967295 ^^^ (T8_DTRI_LEN level - 1))
  let diff_xy : Int := (delta_x : Int) - (delta_y : Int)
  { level := level
    type := if diff_xy > 0 then 0 else if diff_xy < 0 then 1 else t.type
    x := ax
    y := ay
    z := t.z }

/-- `SC_LOG2_32` of the sc library: floor of the base-2 logarithm, `-1` at 0. -/
def sc_log2_32 (x : Nat) : Int := if x = 0 then -1 else Nat.log2 x

/-- Embedding of the 2D `t8_dtri_nearest_common_ancestor`: the level is read
off the highest differing coordinate bit, the result is `t8_dtri_ancestor` of
the first argument at that level. -/
def t8_dtri_nearest_common_ancestor (t1 t2 : Dtri) : Dtri :=
  let exclorx := t1.x ^^^ t2.x
  let exclory := t1.y ^^^ t2.y
  let maxclor := exclorx ||| exclory
  let maxlevel : Nat := (sc_log2_32 maxclor + 1).toNat
  let r_level : Nat := min (T8_DTRI_MAXLEVEL - maxlevel) (min t1.level t2.level)
  t8_dtri_ancestor t1 r_level

/-- Embedding of `t8_default_tri_nca` from `t8_default_tri.c`.  In the source
both local variables `t1` and `t2` are initialised from `elem1`
(`const t8_default_tri_t *t2 = (const t8_default_tri_t *) elem1;`), so the
second argument is never read; the embedding keeps that behaviour. -/
def t8_default_tri_nca (elem1 elem2 : Dtri) : Dtri :=
  t8_dtri_nearest_common_ancestor elem1 elem1

/-- Embedding of `t8_dtri_is_equal` / `t8_dtet_is_equal`.  The source compares
`t1->level == t1->level`, `t1->x == t1->x`, `t1->y == t1->y` (and `t1->z ==
t1->z`), i.e. `t1` against itself on every field except `type`; the embedding
keeps those comparisons verbatim. -/
def t8_dtri_is_equal (c : T8Conn) (t1 t2 : Dtri) : Bool :=
  decide (t1.level = t1.level) && decide (t1.type = t2.type) &&
  decide (t1.x = t1.x) && decide (t1.y = t1.y) &&
  (if c.dim = 3 then decide (t1.z = t1.z) else true)

/-- Field-wise element equality, the comparison the claim (and spec section 9)
prescribes for `is_equal`. -/
def t8_dtri_is_equal_spec (t1 t2 : Dtri) : Bool := decide (t1 = t2)

/-- The mathematical ancestor of `t` at a level: coordinates with the low bits
masked and the type obtained by the upward `cid_type_to_parenttype` walk. -/
def ancestor_at_spec (c : T8Conn) (t : Dtri) (level : Nat) : Dtri :=
  { level := level
    type := type_at_spec c t level
    x := t.x &&& (4294967295 ^^^ (T8_DTRI_LEN level - 1))
    y := t.y &&& (4294967295 ^^^ (T8_DTRI_LEN level - 1))
    z := if c.dim = 3 then t.z &&& (4294967295 ^^^ (T8_DTRI_LEN level - 1)) else t.z }

/-- `a` is an ancestor of `t` (in the tree sense): `a` sits at a coarser or
equal level and coincides with `t`'s ancestor at that level. -/
def t8_dtri_is_ancestor_spec (c : T8Conn) (a t : Dtri) : Bool :=
  decide (a.level ≤ t.level) && decide (ancestor_at_spec c t a.level = a)

/-- A valid element: level and type in range, coordinates inside the root grid
and aligned to the level (low `21 - level` bits clear), `z = 0` in 2D, and the
upward type walk reaching the root type 0 — i.e. the element is a descendant
of the root simplex. -/
def t8_dtri_valid (c : T8Conn) (t : Dtri) : Prop :=
  t.level ≤ T8_DTRI_MAXLEVEL ∧ t.type < c.numTypes ∧
  t.x < T8_DTRI_ROOT_LEN ∧ t.y < T8_DTRI_ROOT_LEN ∧
  (if c.dim = 3 then t.z < T8_DTRI_ROOT_LEN else t.z = 0) ∧
  (∀ j, j < T8_DTRI_MAXLEVEL - t.level →
    (t.x.testBit j = false ∧ t.y.testBit j = false ∧ t.z.testBit j = false)) ∧
  type_at_spec c t 0 = 0

instance (c : T8Conn) (t : Dtri) : Decidable (t8_dtri_valid c t) := by
  unfold t8_dtri_valid; infer_instance

/-- Embedding of `t8_dtri_child_id` / `t8_dtet_child_id`: the child-local
Morton index of the element within its parent. -/
def t8_dtri_child_id (c : T8Conn) (t : Dtri) : Nat :=
  c.type_cid_to_Iloc t.type (compute_cubeid c t t.level)

/-- The inner loop of `t8_dtri_linear_id`, peeling the level-`j` digit (the C
loop runs `i = level .. 1` with the exponent growing from 0): the local index
at level `j` contributes with weight `1`, the coarser digits with weight
`2^dim` each, and the running type steps to the parent type. -/
def linear_id_aux (c : T8Conn) (t : Dtri) : Nat → Nat → Nat
  | 0, _ => 0
  | j + 1, ty =>
    c.type_cid_to_Iloc ty (compute_cubeid c t (j + 1)) +
      2 ^ c.dim *
        linear_id_aux c t j (c.cid_type_to_parenttype (compute_cubeid c t (j + 1)) ty)

/-- Embedding of `t8_dtri_linear_id`: if the queried level exceeds the
element's level, the id is padded by `dim` zero bits per missing level
(first-descendant padding); the C then overwrites `level` with `t->level` and
walks from the element's level up to the root. -/
def t8_dtri_linear_id (c : T8Conn) (t : Dtri) (level : Nat) : Nat :=
  let exponent := if t.level < level then c.dim * (level - t.level) else 0
  linear_id_aux c t t.level (compute_type c t t.level) <<< exponent

/-- Loop body of `t8_dtri_init_linear_id`: OR the cube-id of the level being
processed into bit `pos = T8_DTRI_MAXLEVEL - i` of each coordinate and step the
running type downward.  The element's `level` field is not touched. -/
def init_step (c : T8Conn) (pos : Nat) (local_index : Nat) (t : Dtri) : Dtri :=
  let cid := c.parenttype_Iloc_to_cid t.type local_index
  let ty := c.parenttype_Iloc_to_type t.type local_index
  { t with
    type := ty
    x := t.x ||| (if cid &&& 1 ≠ 0 then 1 <<< pos else 0)
    y := t.y ||| (if cid &&& 2 ≠ 0 then 1 <<< pos else 0)
    z := if c.dim = 3 then t.z ||| (if cid &&& 4 ≠ 0 then 1 <<< pos else 0) else t.z }

/-- Embedding of `t8_dtri_init_linear_id`: start from the root (type 0, anchor
0) and walk downward, consuming `dim` bits of the id per level. -/
def t8_dtri_init_linear_id (c : T8Conn) (id : Nat) (level : Nat) : Dtri :=
  (List.range level).foldl
    (fun t i0 =>
      let i := i0 + 1
      init_step c (T8_DTRI_MAXLEVEL - i) ((id >>> (c.dim * (level - i))) &&& (2 ^ c.dim - 1)) t)
    { level := level, type := 0, x := 0, y := 0, z := 0 }

/-- Embedding of `t8_dtri_succ_pred_recursion`.  The argument `s` plays the
role of the in-out buffer (every caller passes a copy of `t`).  The C asserts
`1 <= level`; the level-0 case below (reachable only when stepping past the
first/last element of the uniform refinement, where the C recursion would not
terminate) returns the buffer unchanged. -/
def t8_dtri_succ_pred_recursion (c : T8Conn) (t : Dtri) : Dtri → Nat → Int → Dtri
  | s, 0, _ => s
  | s, level + 1, increment =>
    if increment = 0 then t
    else
      let h := 1 <<< (T8_DTRI_MAXLEVEL - (level + 1))
      let cid := compute_cubeid c t (level + 1)
      let type_level := compute_type c t (level + 1)
      let local_index0 := c.type_cid_to_Iloc type_level cid
      let local_index := ((local_index0 : Int) + 2 ^ c.dim + increment).toNat % 2 ^ c.dim
      let sign : Int := if increment < 0 then -1 else if 0 < increment then 1 else 0
      let s' :=
        if local_index = 0 then t8_dtri_succ_pred_recursion c t s level sign else s
      let type_level_p1 :=
        if local_index = 0 then s'.type else c.cid_type_to_parenttype cid type_level
      let new_type := c.parenttype_Iloc_to_type type_level_p1 local_index
      let new_cid := c.parenttype_Iloc_to_cid type_level_p1 local_index
      { level := level + 1
        type := new_type
        x := if new_cid &&& 1 ≠ 0 then s'.x ||| h else s'.x &&& (4294967295 ^^^ h)
        y := if new_cid &&& 2 ≠ 0 then s'.y ||| h else s'.y &&& (4294967295 ^^^ h)
        z := if c.dim = 3 then
               (if new_cid &&& 4 ≠ 0 then s'.z ||| h else s'.z &&& (4294967295 ^^^ h))
             else s'.z }

/-- Embedding of `t8_dtri_successor`: copy `t` into the buffer, then run the
recursion with increment `+1`. -/
def t8_dtri_successor (c : T8Conn) (t : Dtri) (level : Nat) : Dtri :=
  t8_dtri_succ_pred_recursion c t t level 1

/-- Precondition assert of `t8_dtri_compute_coords`:
`0 <= vertex && vertex < T8_DTRI_FACES` (3 faces in 2D). -/
def t8_dtri_compute_coords_assert (vertex : Nat) : Bool := decide (vertex < 3)

/-- Embedding of the 2D branch of `t8_dtri_compute_coords` (total on all
inputs, the assert being modelled separately): vertex 0 is the anchor, vertex 1
adds `h` along axis `ei = type`, vertex 2 additionally along the other axis.
Any vertex other than 0 and 2 takes the vertex-1 path, exactly as the C
control flow does. -/
def t8_dtri_compute_coords (t : Dtri) (vertex : Nat) : Nat × Nat :=
  let ei := t.type
  let h := T8_DTRI_LEN t.level
  if vertex = 0 then (t.x, t.y)
  else
    let c1 := if ei = 0 then (t.x + h, t.y) else (t.x, t.y + h)
    if vertex = 2 then
      (if 1 - ei = 0 then (c1.1 + h, c1.2) else (c1.1, c1.2 + h))
    else c1

/-- Embedding of the 2D branch of `t8_dtri_compute_all_coords`: the three
vertex coordinate pairs of the triangle. -/
def t8_dtri_compute_all_coords (t : Dtri) : (Nat × Nat) × (Nat × Nat) × (Nat × Nat) :=
  let ei := t.type
  let h := T8_DTRI_LEN t.level
  let c0 := (t.x, t.y)
  let c1 := if ei = 0 then (t.x + h, t.y) else (t.x, t.y + h)
  let c2 := (t.x + h, t.y + h)
  (c0, c1, c2)

/-- Modelled from the spec: the 2D table `t8_dtri_index_to_bey_number`
(Morton child index to Bey child number). -/
def t8_dtri_index_to_bey_number : Nat → Nat → Nat :=
  tbl [[0, 1, 3, 2], [0, 3, 1, 2]]

/-- Modelled from the spec: the 2D table `t8_dtri_beyid_to_vertex` (anchor
vertex of each Bey child). -/
def t8_dtri_beyid_to_vertex (beyid : Nat) : Nat := [0, 1, 2, 1].getD beyid 0

/-- Modelled from the spec: the 2D table `t8_dtri_type_of_child` (type of each
Bey child). -/
def t8_dtri_type_of_child : Nat → Nat → Nat :=
  tbl [[0, 0, 0, 1], [1, 1, 1, 0]]

/-- Embedding of the 2D `t8_dtri_child`: Bey child number from the table, the
anchor as midpoint of the parent anchor and the Bey vertex, the type from
`type_of_child`. -/
def t8_dtri_child (t : Dtri) (childid : Nat) : Dtri :=
  let bey_cid := t8_dtri_index_to_bey_number t.type childid
  let coords :=
    if bey_cid = 0 then (t.x, t.y)
    else
      let v := t8_dtri_beyid_to_vertex bey_cid
      let tc := t8_dtri_compute_coords t v
      ((t.x + tc.1) >>> 1, (t.y + tc.2) >>> 1)
  { level := t.level + 1
    type := t8_dtri_type_of_child t.type bey_cid
    x := coords.1
    y := coords.2
    z := t.z }

/-- Embedding of the 2D `t8_dtri_childrenpv`: the four children in Morton
order, child 0 keeping the parent anchor and type, the others computed from
`compute_all_coords` through the Bey tables. -/
def t8_dtri_childrenpv (t : Dtri) : Dtri × Dtri × Dtri × Dtri :=
  let tc := t8_dtri_compute_all_coords t
  let level := t.level + 1
  let mk := fun i =>
    let bey_cid := t8_dtri_index_to_bey_number t.type i
    let v := t8_dtri_beyid_to_vertex bey_cid
    let vc := if v = 0 then tc.1 else if v = 1 then tc.2.1 else tc.2.2
    ({ level := level
       type := t8_dtri_type_of_child t.type bey_cid
       x := (t.x + vc.1) >>> 1
       y := (t.y + vc.2) >>> 1
       z := t.z } : Dtri)
  (⟨level, t.type, t.x, t.y, t.z⟩, mk 1, mk 2, mk 3)

/-- Embedding of `t8_dtri_is_familypv` (2D only in the source).  The type
check is kept verbatim: the source early-returns only when all three of
`f[1]->type != 0`, `f[2]->type != 1`, `f[3]->type != type` hold (a `&&`
chain). -/
def t8_dtri_is_familypv (f0 f1 f2 f3 : Dtri) : Bool :=
  let level := f0.level
  if level = 0 ∨ level ≠ f1.level ∨ level ≠ f2.level ∨ level ≠ f3.level then false
  else
    let ty := f0.type
    if f1.type ≠ 0 ∧ f2.type ≠ 1 ∧ f3.type ≠ ty then false
    else if f1.x ≠ f2.x ∨ f1.y ≠ f2.y then false
    else
      let dir1 := ty
      let inc := T8_DTRI_LEN level
      let coords0 := fun j => if j = 0 then f0.x else f0.y
      let coords1 := fun j => if j = 0 then f1.x else f1.y
      decide (coords1 dir1 = coords0 dir1 + inc) &&
      decide (coords1 (1 - dir1) = coords0 (1 - dir1)) &&
      decide (f3.x = f0.x + inc) && decide (f3.y = f0.y + inc)

/-- Line maximum refinement level; the line factor of the prism shares the
prism's level range. -/
def T8_DLINE_MAXLEVEL : Nat := 21

/-- `T8_DLINE_LEN (l) = 1 << (T8_DLINE_MAXLEVEL - l)`. -/
def T8_DLINE_LEN (level : Nat) : Nat := 1 <<< (T8_DLINE_MAXLEVEL - level)

/-- The line element record `t8_dline_t`: anchor coordinate and level. -/
structure Dline where
  level : Nat
  x : Nat
deriving DecidableEq, Repr

/-- Modelled from the spec: `t8_dline_child_id` — the level bit of the
anchor. -/
def t8_dline_child_id (l : Dline) : Nat :=
  (l.x >>> (T8_DLINE_MAXLEVEL - l.level)) &&& 1

/-- Modelled from the spec: `t8_dline_parent` — clear the level bit, decrement
the level. -/
def t8_dline_parent (l : Dline) : Dline :=
  ⟨l.level - 1, l.x &&& (4294967295 ^^^ T8_DLINE_LEN l.level)⟩

/-- Modelled from the spec: `t8_dline_child` — OR the child bit into the next
finer level position. -/
def t8_dline_child (l : Dline) (childid : Nat) : Dline :=
  ⟨l.level + 1, if childid = 1 then l.x ||| T8_DLINE_LEN (l.level + 1) else l.x⟩

/-- Modelled from the spec: `t8_dline_successor` — the next element of the
uniform level-`level` refinement (the 1D Morton id, incremented). -/
def t8_dline_successor (l : Dline) (level : Nat) : Dline :=
  ⟨level, ((l.x >>> (T8_DLINE_MAXLEVEL - level)) + 1) <<< (T8_DLINE_MAXLEVEL - level)⟩

/-- Modelled from the spec: `t8_dline_copy`. -/
def t8_dline_copy (l : Dline) : Dline := l

/-- Modelled from the spec: `t8_dline_vertex_coords` — vertex 0 is the anchor,
vertex 1 the anchor plus the element length. -/
def t8_dline_vertex_coords (l : Dline) (vertex : Nat) : Nat :=
  if vertex = 1 then l.x + T8_DLINE_LEN l.level else l.x

/-- The prism record `t8_dprism_t`: one triangle and one line, sharing a
level. -/
structure Dprism where
  tri : Dtri
  line : Dline
deriving DecidableEq, Repr

/-- Embedding of `t8_dprism_get_level` (the source reads the line level). -/
def t8_dprism_get_level (p : Dprism) : Nat := p.line.level

/-- Embedding of `t8_dprism_parent`: parent of both factors. -/
def t8_dprism_parent (p : Dprism) : Dprism :=
  ⟨t8_dtri_parent t8_dtri_conn p.tri, t8_dline_parent p.line⟩

/-- Modelled from the spec: `t8_dprism_child` — Morton order on the product,
`tri_child = k mod 4`, `line_child = k / 4`. -/
def t8_dprism_child (p : Dprism) (childid : Nat) : Dprism :=
  ⟨t8_dtri_child p.tri (childid % 4), t8_dline_child p.line (childid / 4)⟩

/-- Embedding of `t8_dprism_successor`.  The C routine writes into `succ` and,
in the compound-overflow branch, recurses with input and output aliased
(`t8_dprism_successor(succ, succ, level-1)`), reading `succ->line` before ever
writing it; the embedding models the aliased call (`succ == l`), the only
calling convention under which every read of the routine is defined.  The C
asserts `1 <= level`; the level-0 equation below is the (unreachable under
that contract) recursion floor. -/
def t8_dprism_successor : Dprism → Nat → Dprism
  | l, 0 => l
  | l, level + 1 =>
    let tri_child_id := t8_dtri_child_id t8_dtri_conn l.tri
    let line_child_id := t8_dline_child_id l.line
    if tri_child_id = 3 ∧ line_child_id = 1 then
      let s1tri := t8_dtri_parent t8_dtri_conn l.tri
      if t8_dtri_child_id t8_dtri_conn s1tri = 3 then
        let st : Dprism := ⟨{ s1tri with level := level }, { l.line with level := level }⟩
        let r := t8_dprism_successor st level
        ⟨{ r.tri with level := level + 1 }, { r.line with level := level + 1 }⟩
      else
        let s2tri := t8_dtri_child s1tri 3
        let s3tri := t8_dtri_successor t8_dtri_conn s2tri (level + 1)
        let s2line := t8_dline_child (t8_dline_parent l.line) 0
        ⟨s3tri, s2line⟩
    else if tri_child_id = 3 ∧ line_child_id = 0 then
      ⟨t8_dtri_child (t8_dtri_parent t8_dtri_conn l.tri) 0,
       t8_dline_successor l.line (level + 1)⟩
    else
      ⟨t8_dtri_successor t8_dtri_conn l.tri (level + 1), t8_dline_copy l.line⟩

/-- The successor discipline stated by the claim, written from its words:
advance the triangle factor when its child id is below 3; at triangle overflow
with line child 0, reset the triangle to child 0 of its parent and advance the
line; at compound overflow, ascend one level, recurse, and descend to child 0
of the result. -/
def t8_dprism_successor_spec : Dprism → Nat → Dprism
  | p, 0 => p
  | p, level + 1 =>
    let tri_child_id := t8_dtri_child_id t8_dtri_conn p.tri
    let line_child_id := t8_dline_child_id p.line
    if tri_child_id = 3 ∧ line_child_id = 1 then
      t8_dprism_child (t8_dprism_successor_spec (t8_dprism_parent p) level) 0
    else if tri_child_id = 3 ∧ line_child_id = 0 then
      ⟨t8_dtri_child (t8_dtri_parent t8_dtri_conn p.tri) 0,
       t8_dline_successor p.line (level + 1)⟩
    else
      ⟨t8_dtri_successor t8_dtri_conn p.tri (level + 1), p.line⟩

/-- Embedding of `t8_dprism_linear_id`: the body of the C function consists of
the level assert alone and ends without returning a value; the missing return
value is embedded as `none`. -/
def t8_dprism_linear_id (p : Dprism) (level : Nat) : Option Nat := none

/-- Embedding of `t8_dprism_vertex_coords` (coordinate part): vertices 0..5
take the base-triangle vertex `vertex mod 3` at the lower line coordinate;
vertices 6..8 pass `vertex` itself to `t8_dtri_compute_coords` (as the C
does) at the upper line coordinate. -/
def t8_dprism_vertex_coords (p : Dprism) (vertex : Nat) : Nat × Nat × Nat :=
  if vertex < 6 then
    let cxy := t8_dtri_compute_coords p.tri (vertex % 3)
    (cxy.1, cxy.2, t8_dline_vertex_coords p.line 0)
  else if vertex < 9 then
    let cxy := t8_dtri_compute_coords p.tri vertex
    (cxy.1, cxy.2, t8_dline_vertex_coords p.line 1)
  else (0, 0, 0)

/-- The assertion obligations evaluated by `t8_dprism_vertex_coords`: its own
(always true, `||`-joined) range assert, and the `0 <= vertex < 3`
precondition assert of `t8_dtri_compute_coords` with the argument each call
path passes. -/
def t8_dprism_vertex_coords_asserts (vertex : Nat) : Bool :=
  (decide (0 ≤ vertex) || decide (vertex ≤ 8)) &&
  (if vertex < 6 then t8_dtri_compute_coords_assert (vertex % 3)
   else if vertex < 9 then t8_dtri_compute_coords_assert vertex
   else true)

/-- A valid prism: a valid triangle factor, a level-matching line factor with
in-range, aligned anchor. -/
def t8_dprism_valid (p : Dprism) : Prop :=
  t8_dtri_valid t8_dtri_conn p.tri ∧ p.tri.level = p.line.level ∧
  p.line.level ≤ T8_DLINE_MAXLEVEL ∧ p.line.x < 1 <<< T8_DLINE_MAXLEVEL ∧
  (∀ j, j < T8_DLINE_MAXLEVEL - p.line.level → p.line.x.testBit j = false)

instance (p : Dprism) : Decidable (t8_dprism_valid p) := by
  unfold t8_dprism_valid; infer_instance

/-- Maximum refinement level of the quad kernel (`P4EST_MAXLEVEL`), 30 per the
spec. -/
def P4EST_MAXLEVEL : Nat := 30

/-- The quad element record (a p4est quadrant; the face-embedding surround
metadata, copied verbatim by every operation, is dropped). -/
structure Pquad where
  level : Nat
  x : Nat
  y : Nat
deriving DecidableEq, Repr

/-- Modelled from the spec: the Morton interleaving — bit `i` of `x` becomes
bit `2i` of the id, bit `i` of `y` bit `2i+1`. -/
def morton_interleave : Nat → Nat → Nat → Nat
  | 0, _, _ => 0
  | l + 1, x, y => ((x &&& 1) ||| ((y &&& 1) <<< 1)) + 4 * morton_interleave l (x >>> 1) (y >>> 1)

/-- Modelled from the spec: extraction of the even-position bits of a Morton
id (the inverse of the interleaving, used by `p4est_quadrant_set_morton`). -/
def morton_extract : Nat → Nat → Nat
  | 0, _ => 0
  | l + 1, id => (id &&& 1) + 2 * morton_extract l (id >>> 2)

/-- Modelled from the spec: `p4est_quadrant_linear_id` — the Morton index of
the quadrant's level-`level` ancestor. -/
def p4est_quadrant_linear_id (q : Pquad) (level : Nat) : Nat :=
  morton_interleave level (q.x >>> (P4EST_MAXLEVEL - level)) (q.y >>> (P4EST_MAXLEVEL - level))

/-- Modelled from the spec: `p4est_quadrant_set_morton` — the level-`level`
quadrant with the given Morton index. -/
def p4est_quadrant_set_morton (level : Nat) (id : Nat) : Pquad :=
  { level := level
    x := morton_extract level id <<< (P4EST_MAXLEVEL - level)
    y := morton_extract level (id >>> 1) <<< (P4EST_MAXLEVEL - level) }

/-- Embedding of `t8_default_quad_successor`: read the linear id at `level`,
add one, and re-initialise the element from the incremented Morton index. -/
def t8_default_quad_successor (elem1 : Pquad) (level : Nat) : Pquad :=
  p4est_quadrant_set_morton level (p4est_quadrant_linear_id elem1 level + 1)

/-- C1: `t8_default_tri_nca` ignores its second argument (both locals are cast
from `elem1`), so on the valid triangles `t1 = (level 1, type 0, 0, 0)` and
`t2 = (level 1, type 0, x = 2^20, 0)` it writes `t1` itself, which is not an
ancestor of `t2`; the claimed NCA property fails. -/
theorem C1_default_tri_nca_not_nca :
    t8_default_tri_nca ⟨1, 0, 0, 0, 0⟩ ⟨1, 0, 1048576, 0, 0⟩ = ⟨1, 0, 0, 0, 0⟩ ∧
    t8_dtri_is_ancestor_spec t8_dtri_conn ⟨1, 0, 0, 0, 0⟩ ⟨1, 0, 1048576, 0, 0⟩ = false ∧
    t8_dtri_valid t8_dtri_conn ⟨1, 0, 0, 0, 0⟩ ∧
    t8_dtri_valid t8_dtri_conn ⟨1, 0, 1048576, 0, 0⟩ := by
  refine ⟨by decide, by decide, by decide, by decide⟩

/-- C2: the loop of `compute_type` runs `for (i = tlevel; i < level; i++)` and
so never executes for `level < tlevel`; on the valid level-2 triangle
`(type 0, x = 2^20, y = 2^19)` the function returns the element's own type 0
at level 1, while the upward `cid_type_to_parenttype` walk prescribed by the
claim yields type 1. -/
theorem C2_compute_type_loop_never_runs :
    t8_dtri_valid t8_dtri_conn ⟨2, 0, 1048576, 524288, 0⟩ ∧
    compute_type t8_dtri_conn ⟨2, 0, 1048576, 524288, 0⟩ 1 = 0 ∧
    type_at_spec t8_dtri_conn ⟨2, 0, 1048576, 524288, 0⟩ 1 = 1 := by
  refine ⟨by decide, by decide, by decide⟩

/-- C10: `t8_dtri_is_equal` compares `t1` against itself on level and
coordinates, hence it accepts two valid triangles of equal type that differ in
their anchor; field-wise equality (the claimed behaviour) rejects them. -/
theorem C10_is_equal_ignores_coords :
    t8_dtri_is_equal t8_dtri_conn ⟨1, 0, 0, 0, 0⟩ ⟨1, 0, 1048576, 0, 0⟩ = true ∧
    t8_dtri_is_equal_spec ⟨1, 0, 0, 0, 0⟩ ⟨1, 0, 1048576, 0, 0⟩ = false ∧
    t8_dtri_valid t8_dtri_conn ⟨1, 0, 0, 0, 0⟩ ∧
    t8_dtri_valid t8_dtri_conn ⟨1, 0, 1048576, 0, 0⟩ := by
  refine ⟨by decide, by decide, by decide, by decide⟩

/-- `T8_DTRI_LEN` as a power of two. -/
lemma T8_DTRI_LEN_eq (l : Nat) : T8_DTRI_LEN l = 2 ^ (T8_DTRI_MAXLEVEL - l) := by
  unfold T8_DTRI_LEN
  exact Nat.one_shiftLeft _

/-- Masking with the 32-bit complement `~m` keeps exactly the bits of `u`
outside `m`, for 32-bit-ranged `u` and `m`. -/
lemma and_not32_testBit (u m j : Nat) (hu : u < 4294967296) (hm : m < 4294967296) :
    (u &&& (4294967295 ^^^ m)).testBit j = (u.testBit j && !(m.testBit j)) := by
  rw [Nat.testBit_and, Nat.testBit_xor]
  by_cases hj : j < 32
  · have h1 : (4294967295 : Nat).testBit j = true := by
      have h2 : (4294967295 : Nat) = 2 ^ 32 - 1 := by norm_num
      rw [h2, Nat.testBit_two_pow_sub_one]
      simpa using hj
    rw [h1]
    cases u.testBit j <;> cases m.testBit j <;> rfl
  · have hju : u.testBit j = false := by
      refine Nat.testBit_lt_two_pow (lt_of_lt_of_le hu ?_)
      have h32 : (4294967296 : Nat) = 2 ^ 32 := by norm_num
      rw [h32]
      exact Nat.pow_le_pow_right (by norm_num) (by omega)
    rw [hju]
    rfl

/-- Bit `j` of a power of two `2 ^ p`, commuted to `j = p` form. -/
lemma testBit_pow_comm (p j : Nat) : ((2 : Nat) ^ p).testBit j = decide (j = p) := by
  rw [Nat.testBit_two_pow]
  simp [eq_comm]

/-- Out-of-range rows of a constant table read as 0. -/
lemma tbl_out_of_range (rows : List (List Nat)) (i j : Nat) (h : rows.length ≤ i) :
    tbl rows i j = 0 := by
  unfold tbl
  rw [List.getD_eq_default _ _ h]
  cases j <;> rfl

/-- The second Morton child produced by `t8_dtri_childrenpv` always has type
0 (`type_of_child` composed with `index_to_bey_number` at index 1). -/
lemma childrenpv_snd_type (t : Dtri) : (t8_dtri_childrenpv t).2.1.type = 0 := by
  show t8_dtri_type_of_child t.type (t8_dtri_index_to_bey_number t.type 1) = 0
  match t.type with
  | 0 => rfl
  | 1 => rfl
  | n + 2 =>
    have h1 : t8_dtri_index_to_bey_number (n + 2) 1 = 0 := by
      unfold t8_dtri_index_to_bey_number
      rw [tbl_out_of_range]
      simp
    rw [h1]
    unfold t8_dtri_type_of_child
    rw [tbl_out_of_range]
    simp

/-- C5: the type check in `t8_dtri_is_familypv` joins its three conditions
with `&&`, so it only rejects tuples in which all three types deviate.  The
displayed tuple — the level-1 family of the root with `f[1]`'s type corrupted
from 0 to 1 — is accepted, although it is not the children tuple of any
triangle (every `childrenpv` tuple has a type-0 second member). -/
theorem C5_is_familypv_accepts_corrupted_tuple :
    t8_dtri_is_familypv ⟨1, 0, 0, 0, 0⟩ ⟨1, 1, 1048576, 0, 0⟩ ⟨1, 1, 1048576, 0, 0⟩
      ⟨1, 0, 1048576, 1048576, 0⟩ = true ∧
    ∀ t : Dtri,
      t8_dtri_childrenpv t ≠
        (⟨1, 0, 0, 0, 0⟩, ⟨1, 1, 1048576, 0, 0⟩, ⟨1, 1, 1048576, 0, 0⟩,
         ⟨1, 0, 1048576, 1048576, 0⟩) := by
  refine ⟨by decide, ?_⟩
  intro t h
  have h2 := congrArg (fun q => q.2.1.type) h
  simp only [childrenpv_snd_type] at h2
  exact absurd h2 (by decide)

/-- C6: `t8_dprism_linear_id` consists of the level assert alone and falls off
the end of the function without producing a value — also on the valid level-2
prism shown — while the claim (and the function's own header comment) promise
the linear SFC position. -/
theorem C6_prism_linear_id_has_no_value :
    t8_dprism_linear_id ⟨⟨0, 0, 0, 0, 0⟩, ⟨0, 0⟩⟩ 0 = none ∧
    t8_dprism_linear_id ⟨⟨2, 1, 1048576, 0, 0⟩, ⟨2, 1572864⟩⟩ 2 = none ∧
    t8_dprism_valid ⟨⟨2, 1, 1048576, 0, 0⟩, ⟨2, 1572864⟩⟩ := by
  refine ⟨rfl, rfl, by decide⟩

/-- C7: on the valid level-3 prism below — triangle child id 3, line child id
1, a carry that propagates two levels — `t8_dprism_successor` returns a line
anchor with the level-3 bit still set (`262144`), whereas the carry discipline
stated by the claim (ascend, recurse, descend to child 0 of the result,
written out as `t8_dprism_successor_spec`) resets the line to anchor 0.  The
code result is not the SFC successor. -/
theorem C7_prism_successor_breaks_carry_discipline :
    t8_dprism_valid ⟨⟨3, 0, 786432, 786432, 0⟩, ⟨3, 786432⟩⟩ ∧
    t8_dtri_child_id t8_dtri_conn (⟨3, 0, 786432, 786432, 0⟩ : Dtri) = 3 ∧
    t8_dline_child_id (⟨3, 786432⟩ : Dline) = 1 ∧
    t8_dprism_successor ⟨⟨3, 0, 786432, 786432, 0⟩, ⟨3, 786432⟩⟩ 3 =
      ⟨⟨3, 0, 1048576, 0, 0⟩, ⟨3, 262144⟩⟩ ∧
    t8_dprism_successor_spec ⟨⟨3, 0, 786432, 786432, 0⟩, ⟨3, 786432⟩⟩ 3 =
      ⟨⟨3, 0, 1048576, 0, 0⟩, ⟨3, 0⟩⟩ := by
  refine ⟨by decide, by decide, by decide, by decide, by decide⟩

/-- C9: for the apex vertices 6..8, `t8_dprism_vertex_coords` passes `vertex`
itself (not `vertex mod 3`) to `t8_dtri_compute_coords`, violating the
latter's `0 <= vertex < 3` precondition assert; for vertices 0..5 every
evaluated assertion holds. -/
theorem C9_vertex_coords_assert_violated :
    t8_dprism_vertex_coords_asserts 6 = false ∧
    t8_dprism_vertex_coords_asserts 7 = false ∧
    t8_dprism_vertex_coords_asserts 8 = false ∧
    (List.range 6).all t8_dprism_vertex_coords_asserts = true := by
  refine ⟨rfl, rfl, rfl, by decide⟩

/-- The conjunction of the parent properties stated by claim C8: the level
drops by one, every coordinate keeps its bits except that bit
`MAXLEVEL - t.level` is cleared (`z` only in 3D), and the type is the
`cid_type_to_parenttype` entry for the element's cube-id and type. -/
def parent_spec_holds (c : T8Conn) (t : Dtri) : Prop :=
  (t8_dtri_parent c t).level = t.level - 1 ∧
  (t8_dtri_parent c t).type = c.cid_type_to_parenttype (compute_cubeid c t t.level) t.type ∧
  ∀ j,
    (t8_dtri_parent c t).x.testBit j =
      (t.x.testBit j && !decide (j = T8_DTRI_MAXLEVEL - t.level)) ∧
    (t8_dtri_parent c t).y.testBit j =
      (t.y.testBit j && !decide (j = T8_DTRI_MAXLEVEL - t.level)) ∧
    (c.dim = 3 →
      (t8_dtri_parent c t).z.testBit j =
        (t.z.testBit j && !decide (j = T8_DTRI_MAXLEVEL - t.level)))

/-- The parent properties hold for any element with in-range coordinates. -/
lemma parent_spec_of_bounds (c : T8Conn) (t : Dtri) (hx : t.x < 4294967296)
    (hy : t.y < 4294967296) (hz : t.z < 4294967296) : parent_spec_holds c t := by
  have hlen : T8_DTRI_LEN t.level < 4294967296 := by
    rw [T8_DTRI_LEN_eq]
    calc (2 : Nat) ^ (T8_DTRI_MAXLEVEL - t.level) ≤ 2 ^ T8_DTRI_MAXLEVEL :=
          Nat.pow_le_pow_right (by norm_num) (by omega)
      _ < 4294967296 := by norm_num [T8_DTRI_MAXLEVEL]
  refine ⟨rfl, rfl, fun j => ⟨?_, ?_, fun hdim => ?_⟩⟩
  · show (t.x &&& (4294967295 ^^^ T8_DTRI_LEN t.level)).testBit j = _
    rw [and_not32_testBit _ _ _ hx hlen, T8_DTRI_LEN_eq, testBit_pow_comm]
  · show (t.y &&& (4294967295 ^^^ T8_DTRI_LEN t.level)).testBit j = _
    rw [and_not32_testBit _ _ _ hy hlen, T8_DTRI_LEN_eq, testBit_pow_comm]
  · show (if c.dim = 3 then t.z &&& (4294967295 ^^^ T8_DTRI_LEN t.level) else t.z).testBit j = _
    rw [if_pos hdim, and_not32_testBit _ _ _ hz hlen, T8_DTRI_LEN_eq, testBit_pow_comm]

/-- C8: for every valid triangle and every valid tetrahedron of positive
level, `t8_dtri_parent` / `t8_dtet_parent` decrements the level, clears
exactly bit `MAXLEVEL - t.level` of each anchor coordinate, and sets the type
to `cid_type_to_parenttype[cubeid(t, t.level)][t.type]`. -/
theorem C8_parent_properties :
    (∀ t : Dtri, t8_dtri_valid t8_dtri_conn t → 0 < t.level →
      parent_spec_holds t8_dtri_conn t) ∧
    (∀ t : Dtri, t8_dtri_valid t8_dtet_conn t → 0 < t.level →
      parent_spec_holds t8_dtet_conn t) := by
  constructor
  · intro t hv _
    obtain ⟨-, -, hx, hy, hz, -, -⟩ := hv
    refine parent_spec_of_bounds _ _ ?_ ?_ ?_
    · exact lt_trans hx (by decide)
    · exact lt_trans hy (by decide)
    · simp only [t8_dtri_conn] at hz
      norm_num at hz
      omega
  · intro t hv _
    obtain ⟨-, -, hx, hy, hz, -, -⟩ := hv
    refine parent_spec_of_bounds _ _ ?_ ?_ ?_
    · exact lt_trans hx (by decide)
    · exact lt_trans hy (by decide)
    · simp only [t8_dtet_conn] at hz
      norm_num at hz
      exact lt_trans hz (by decide)

/-- Witness for C8: the parent properties applied to the concrete valid
level-1 triangle and tetrahedron with anchor `(2^20, 0[, 0])` and type 0. -/
theorem C8_parent_properties_witness :
    parent_spec_holds t8_dtri_conn ⟨1, 0, 1048576, 0, 0⟩ ∧
    parent_spec_holds t8_dtet_conn ⟨1, 0, 1048576, 0, 0⟩ :=
  ⟨C8_parent_properties.1 ⟨1, 0, 1048576, 0, 0⟩ (by decide) (by decide),
   C8_parent_properties.2 ⟨1, 0, 1048576, 0, 0⟩ (by decide) (by decide)⟩

/-- `&&&` with a low-bit mask is reduction modulo the power of two. -/
lemma and_two_pow_sub_one (n i : Nat) : n &&& (2 ^ i - 1) = n % 2 ^ i := by
  apply Nat.eq_of_testBit_eq
  intro j
  rw [Nat.testBit_and, Nat.testBit_two_pow_sub_one, Nat.testBit_mod_two_pow]
  cases n.testBit j <;> simp

/-- The mutual-inverse consistency the spec requires of a connectivity record
(section 6.3: the tables "must agree between `linear_id` and
`init_linear_id`"), together with the range facts of the C contracts and the
chain fact that a last child (local index `CHILDREN - 1`) has its parent's
type. -/
def ConnGood (c : T8Conn) : Prop :=
  (c.dim = 2 ∨ c.dim = 3) ∧
  (∀ cid, cid < 2 ^ c.dim → ∀ ty, ty < c.numTypes →
    c.cid_type_to_parenttype cid ty < c.numTypes ∧
    c.type_cid_to_Iloc ty cid < 2 ^ c.dim ∧
    c.parenttype_Iloc_to_type (c.cid_type_to_parenttype cid ty) (c.type_cid_to_Iloc ty cid) = ty ∧
    c.parenttype_Iloc_to_cid (c.cid_type_to_parenttype cid ty) (c.type_cid_to_Iloc ty cid) = cid) ∧
  (∀ pt, pt < c.numTypes → ∀ i, i < 2 ^ c.dim →
    c.parenttype_Iloc_to_type pt i < c.numTypes ∧
    c.parenttype_Iloc_to_cid pt i < 2 ^ c.dim ∧
    c.type_cid_to_Iloc (c.parenttype_Iloc_to_type pt i) (c.parenttype_Iloc_to_cid pt i) = i ∧
    c.cid_type_to_parenttype (c.parenttype_Iloc_to_cid pt i) (c.parenttype_Iloc_to_type pt i) = pt) ∧
  (∀ ty, ty < c.numTypes → ∀ cid, cid < 2 ^ c.dim →
    c.type_cid_to_Iloc ty cid = 2 ^ c.dim - 1 → c.cid_type_to_parenttype cid ty = ty)

instance (c : T8Conn) : Decidable (ConnGood c) := by
  unfold ConnGood; infer_instance

/-- The modelled triangle tables satisfy the spec's consistency. -/
theorem t8_dtri_conn_good : ConnGood t8_dtri_conn := by decide

/-- The modelled tetrahedron tables satisfy the spec's consistency. -/
theorem t8_dtet_conn_good : ConnGood t8_dtet_conn := by decide

/-- `compute_cubeid` written through `testBit`. -/
lemma compute_cubeid_eq (c : T8Conn) (t : Dtri) (l : Nat) (hl : l ≠ 0) :
    compute_cubeid c t l =
      (if t.x.testBit (T8_DTRI_MAXLEVEL - l) then 1 else 0) +
      (if t.y.testBit (T8_DTRI_MAXLEVEL - l) then 2 else 0) +
      (if c.dim = 3 then (if t.z.testBit (T8_DTRI_MAXLEVEL - l) then 4 else 0) else 0) := by
  have key : ∀ u : Nat, (u &&& T8_DTRI_LEN l ≠ 0) ↔
      u.testBit (T8_DTRI_MAXLEVEL - l) = true := by
    intro u
    rw [T8_DTRI_LEN_eq, Nat.and_two_pow]
    rcases h : u.testBit (T8_DTRI_MAXLEVEL - l) <;> simp [h]
  unfold compute_cubeid
  rw [if_neg hl]
  by_cases hd : c.dim = 3 <;>
    by_cases ha : t.x.testBit (T8_DTRI_MAXLEVEL - l) <;>
    by_cases hb : t.y.testBit (T8_DTRI_MAXLEVEL - l) <;>
    by_cases hc : t.z.testBit (T8_DTRI_MAXLEVEL - l) <;>
    simp [hd, ha, hb, hc, key] <;> first | decide | omega

/-- The cube-id is bounded by the number of children. -/
lemma compute_cubeid_lt (c : T8Conn) (hdim : c.dim = 2 ∨ c.dim = 3) (t : Dtri) (l : Nat) :
    compute_cubeid c t l < 2 ^ c.dim := by
  rcases Nat.eq_zero_or_pos l with h0 | h0
  · subst h0
    unfold compute_cubeid
    simp only [if_pos rfl]
    exact Nat.pos_pow_of_pos _ (by norm_num)
  · rw [compute_cubeid_eq c t l (by omega)]
    rcases hdim with hd | hd <;> rw [hd]
    · have h4 : (2 : Nat) ^ 2 = 4 := by norm_num
      rw [h4]
      split_ifs <;> omega
    · have h8 : (2 : Nat) ^ 3 = 8 := by norm_num
      rw [h8]
      split_ifs <;> omega

/-- Elements that agree on the tested coordinate bit have equal cube-ids. -/
lemma compute_cubeid_congr (c : T8Conn) (t t' : Dtri) (l : Nat)
    (hx : t.x.testBit (T8_DTRI_MAXLEVEL - l) = t'.x.testBit (T8_DTRI_MAXLEVEL - l))
    (hy : t.y.testBit (T8_DTRI_MAXLEVEL - l) = t'.y.testBit (T8_DTRI_MAXLEVEL - l))
    (hz : t.z.testBit (T8_DTRI_MAXLEVEL - l) = t'.z.testBit (T8_DTRI_MAXLEVEL - l)) :
    compute_cubeid c t l = compute_cubeid c t' l := by
  rcases Nat.eq_zero_or_pos l with h0 | h0
  · subst h0; rfl
  · rw [compute_cubeid_eq c t l (by omega), compute_cubeid_eq c t' l (by omega), hx, hy, hz]

/-- The low bits of the cube-id recover the coordinate bits. -/
lemma compute_cubeid_bits (c : T8Conn) (hdim : c.dim = 2 ∨ c.dim = 3) (t : Dtri) (l : Nat)
    (hl : l ≠ 0) :
    ((compute_cubeid c t l &&& 1 ≠ 0) ↔ t.x.testBit (T8_DTRI_MAXLEVEL - l) = true) ∧
    ((compute_cubeid c t l &&& 2 ≠ 0) ↔ t.y.testBit (T8_DTRI_MAXLEVEL - l) = true) ∧
    (c.dim = 3 →
      ((compute_cubeid c t l &&& 4 ≠ 0) ↔ t.z.testBit (T8_DTRI_MAXLEVEL - l) = true)) := by
  rw [compute_cubeid_eq c t l hl]
  rcases hdim with hd | hd <;>
    by_cases ha : t.x.testBit (T8_DTRI_MAXLEVEL - l) <;>
    by_cases hb : t.y.testBit (T8_DTRI_MAXLEVEL - l) <;>
    by_cases hc : t.z.testBit (T8_DTRI_MAXLEVEL - l) <;>
    simp [hd, ha, hb, hc] <;> first | decide | omega

/-- `compute_type` at the element's own level returns its type. -/
lemma compute_type_own (c : T8Conn) (t : Dtri) : compute_type c t t.level = t.type := by
  unfold compute_type
  simp

/-- `type_at_spec` at the element's own level returns its type. -/
lemma type_at_spec_own (c : T8Conn) (t : Dtri) : type_at_spec c t t.level = t.type := by
  unfold type_at_spec
  rw [Nat.sub_self]
  rfl

/-- One upward step of `type_at_spec`. -/
lemma type_at_spec_step (c : T8Conn) (t : Dtri) (j : Nat) (h1 : 1 ≤ j) (h2 : j ≤ t.level) :
    type_at_spec c t (j - 1) =
      c.cid_type_to_parenttype (compute_cubeid c t j) (type_at_spec c t j) := by
  unfold type_at_spec
  have e1 : t.level - (j - 1) = (t.level - j) + 1 := by omega
  rw [e1]
  show c.cid_type_to_parenttype (compute_cubeid c t (t.level - (t.level - j)))
      (type_at_aux c t (t.level - j)) = _
  have e2 : t.level - (t.level - j) = j := by omega
  rw [e2]

/-- `type_at_spec` stays in range. -/
lemma type_at_spec_lt (c : T8Conn) (hc : ConnGood c) (t : Dtri) (hty : t.type < c.numTypes) :
    ∀ k, type_at_aux c t k < c.numTypes := by
  intro k
  induction k with
  | zero => exact hty
  | succ k ih =>
    show c.cid_type_to_parenttype _ _ < c.numTypes
    exact (hc.2.1 _ (compute_cubeid_lt c hc.1 t _) _ ih).1

/-- `type_at_aux` only depends on the type and the cube-ids. -/
lemma type_at_aux_congr (c : T8Conn) (s s2 : Dtri) (hl : s.level = s2.level)
    (hty : s.type = s2.type)
    (hcube : ∀ i, compute_cubeid c s i = compute_cubeid c s2 i) :
    ∀ k, type_at_aux c s k = type_at_aux c s2 k := by
  intro k
  induction k with
  | zero => exact hty
  | succ k ih =>
    show c.cid_type_to_parenttype (compute_cubeid c s (s.level - k)) _ =
      c.cid_type_to_parenttype (compute_cubeid c s2 (s2.level - k)) _
    rw [hl, hcube, ih]

/-- `linear_id_aux` only depends on the cube-ids at the levels it visits. -/
lemma linear_id_aux_congr (c : T8Conn) (t t' : Dtri) :
    ∀ j, (∀ i, 1 ≤ i → i ≤ j → compute_cubeid c t i = compute_cubeid c t' i) →
      ∀ ty, linear_id_aux c t j ty = linear_id_aux c t' j ty := by
  intro j
  induction j with
  | zero => intro _ _; rfl
  | succ j ih =>
    intro h ty
    show c.type_cid_to_Iloc ty (compute_cubeid c t (j + 1)) + 2 ^ c.dim * _ =
      c.type_cid_to_Iloc ty (compute_cubeid c t' (j + 1)) + 2 ^ c.dim * _
    rw [h (j + 1) (by omega) (by omega),
      ih (fun i hi1 hi2 => h i hi1 (by omega)) _]

/-- The parent's cube-ids agree with the child's on all coarser levels. -/
lemma parent_cubeid_eq (c : T8Conn) (t : Dtri) (hx : t.x < 4294967296)
    (hy : t.y < 4294967296) (hz : t.z < 4294967296) (hlev : t.level ≤ T8_DTRI_MAXLEVEL) :
    ∀ i, i ≤ t.level - 1 →
      compute_cubeid c (t8_dtri_parent c t) i = compute_cubeid c t i := by
  intro i hi
  have hp := parent_spec_of_bounds c t hx hy hz
  rcases Nat.eq_zero_or_pos i with h0 | h0
  · subst h0; rfl
  · have hne : T8_DTRI_MAXLEVEL - i ≠ T8_DTRI_MAXLEVEL - t.level := by omega
    refine compute_cubeid_congr c _ t i ?_ ?_ ?_
    · rw [(hp.2.2 (T8_DTRI_MAXLEVEL - i)).1]
      simp [hne]
    · rw [(hp.2.2 (T8_DTRI_MAXLEVEL - i)).2.1]
      simp [hne]
    · by_cases hd : c.dim = 3
      · rw [(hp.2.2 (T8_DTRI_MAXLEVEL - i)).2.2 hd]
        simp [hne]
      · show (if c.dim = 3 then _ else t.z).testBit _ = _
        rw [if_neg hd]

/-- The parent's type walk is the tail of the child's type walk. -/
lemma type_at_aux_parent (c : T8Conn) (t : Dtri) (hl : 0 < t.level)
    (hcube : ∀ i, i ≤ t.level - 1 →
      compute_cubeid c (t8_dtri_parent c t) i = compute_cubeid c t i) :
    ∀ m, type_at_aux c (t8_dtri_parent c t) m = type_at_aux c t (m + 1) := by
  intro m
  induction m with
  | zero =>
    show (t8_dtri_parent c t).type =
      c.cid_type_to_parenttype (compute_cubeid c t (t.level - 0)) t.type
    rw [Nat.sub_zero]
    rfl
  | succ m ih =>
    show c.cid_type_to_parenttype
        (compute_cubeid c (t8_dtri_parent c t) ((t8_dtri_parent c t).level - m)) _ =
      c.cid_type_to_parenttype (compute_cubeid c t (t.level - (m + 1))) _
    have e1 : (t8_dtri_parent c t).level = t.level - 1 := rfl
    have e2 : t.level - 1 - m = t.level - (m + 1) := by omega
    rw [ih, e1, e2, hcube _ (by omega)]

/-- Overwrite the level field of an element. -/
def setLevel (t : Dtri) (L : Nat) : Dtri := { t with level := L }

/-- `init_step` commutes with overwriting the level field. -/
lemma init_step_level (c : T8Conn) (p li : Nat) (t : Dtri) (L : Nat) :
    init_step c p li (setLevel t L) = setLevel (init_step c p li t) L := rfl

/-- Folding `init_step`s commutes with overwriting the level field. -/
lemma foldl_init_step_level (c : T8Conn) (g h : Nat → Nat) (l : List Nat) (t : Dtri)
    (L : Nat) :
    l.foldl (fun s i0 => init_step c (g i0) (h i0) s) (setLevel t L) =
      setLevel (l.foldl (fun s i0 => init_step c (g i0) (h i0) s) t) L := by
  induction l generalizing t with
  | nil => rfl
  | cons a l ih =>
    simp only [List.foldl_cons]
    rw [init_step_level, ih]

/-- Peeling the finest level off `t8_dtri_init_linear_id`: initialising from
`id` at `level + 1` is initialising from `id >>> dim` at `level` followed by
one `init_step` with the low `dim` bits of `id`. -/
lemma init_linear_id_succ (c : T8Conn) (id level : Nat) :
    t8_dtri_init_linear_id c id (level + 1) =
      init_step c (T8_DTRI_MAXLEVEL - (level + 1)) (id &&& (2 ^ c.dim - 1))
        (setLevel (t8_dtri_init_linear_id c (id >>> c.dim) level) (level + 1)) := by
  show (List.range (level + 1)).foldl _ _ = _
  rw [List.range_succ, List.foldl_append, List.foldl_cons, List.foldl_nil]
  simp only [Nat.sub_self, Nat.mul_zero, Nat.shiftRight_zero]
  congr 1
  rw [show ({ level := level + 1, type := 0, x := 0, y := 0, z := 0 } : Dtri) =
        setLevel { level := level, type := 0, x := 0, y := 0, z := 0 } (level + 1) from rfl]
  rw [foldl_init_step_level c (fun i0 => T8_DTRI_MAXLEVEL - (i0 + 1))
    (fun i0 => (id >>> (c.dim * (level + 1 - (i0 + 1)))) &&& (2 ^ c.dim - 1))]
  show setLevel ((List.range level).foldl _ _) (level + 1) = _
  congr 1
  apply List.foldl_ext
  intro s i0 hi0
  have hi : i0 < level := List.mem_range.mp hi0
  have harith : c.dim * (level + 1 - (i0 + 1)) = c.dim + c.dim * (level - (i0 + 1)) := by
    have e : level + 1 - (i0 + 1) = (level - (i0 + 1)) + 1 := by omega
    rw [e]
    ring
  rw [harith, Nat.shiftRight_add]

/-- `t8_dtri_linear_id` at the element's own level is the plain digit walk. -/
lemma linear_id_own (c : T8Conn) (t : Dtri) :
    t8_dtri_linear_id c t t.level = linear_id_aux c t t.level t.type := by
  unfold t8_dtri_linear_id
  rw [compute_type_own]
  simp

/-- The parent of a valid element is valid, and its type is the child's
`type_at_spec` one level up. -/
lemma valid_parent (c : T8Conn) (hc : ConnGood c) (t : Dtri) (hv : t8_dtri_valid c t)
    (hl : 0 < t.level) :
    t8_dtri_valid c (t8_dtri_parent c t) ∧
    (t8_dtri_parent c t).type = type_at_spec c t (t.level - 1) := by
  obtain ⟨hlev, hty, hx, hy, hz, halign, hchain⟩ := hv
  have hroot : T8_DTRI_ROOT_LEN < 4294967296 := by decide
  have hx32 : t.x < 4294967296 := lt_trans hx hroot
  have hy32 : t.y < 4294967296 := lt_trans hy hroot
  have hz32 : t.z < 4294967296 := by
    by_cases hd : c.dim = 3
    · rw [if_pos hd] at hz
      exact lt_trans hz hroot
    · rw [if_neg hd] at hz
      omega
  have hp := parent_spec_of_bounds c t hx32 hy32 hz32
  have hcube := parent_cubeid_eq c t hx32 hy32 hz32 hlev
  have htypeP : (t8_dtri_parent c t).type = type_at_spec c t (t.level - 1) := by
    rw [type_at_spec_step c t t.level (by omega) le_rfl, type_at_spec_own]
    rfl
  refine ⟨⟨?_, ?_, ?_, ?_, ?_, ?_, ?_⟩, htypeP⟩
  · show t.level - 1 ≤ T8_DTRI_MAXLEVEL
    omega
  · exact (hc.2.1 _ (compute_cubeid_lt c hc.1 t _) _ hty).1
  · exact lt_of_le_of_lt Nat.and_le_left hx
  · exact lt_of_le_of_lt Nat.and_le_left hy
  · show (if c.dim = 3 then (t8_dtri_parent c t).z < T8_DTRI_ROOT_LEN else
      (t8_dtri_parent c t).z = 0)
    by_cases hd : c.dim = 3
    · rw [if_pos hd]
      rw [if_pos hd] at hz
      show (if c.dim = 3 then t.z &&& _ else t.z) < T8_DTRI_ROOT_LEN
      rw [if_pos hd]
      exact lt_of_le_of_lt Nat.and_le_left hz
    · rw [if_neg hd]
      rw [if_neg hd] at hz
      show (if c.dim = 3 then t.z &&& _ else t.z) = 0
      rw [if_neg hd]
      exact hz
  · intro j hj
    have hj' : j ≤ T8_DTRI_MAXLEVEL - t.level := by
      show j ≤ T8_DTRI_MAXLEVEL - t.level
      have : (t8_dtri_parent c t).level = t.level - 1 := rfl
      rw [this] at hj
      omega
    have hb := hp.2.2 j
    rcases Nat.lt_or_ge j (T8_DTRI_MAXLEVEL - t.level) with hlt | hge
    · obtain ⟨ha1, ha2, ha3⟩ := halign j hlt
      refine ⟨?_, ?_, ?_⟩
      · rw [hb.1, ha1]
        rfl
      · rw [hb.2.1, ha2]
        rfl
      · by_cases hd : c.dim = 3
        · rw [hb.2.2 hd, ha3]
          rfl
        · show (if c.dim = 3 then _ else t.z).testBit j = false
          rw [if_neg hd]
          exact ha3
    · have hjeq : j = T8_DTRI_MAXLEVEL - t.level := by omega
      refine ⟨?_, ?_, ?_⟩
      · rw [hb.1, hjeq]
        simp
      · rw [hb.2.1, hjeq]
        simp
      · by_cases hd : c.dim = 3
        · rw [hb.2.2 hd, hjeq]
          simp
        · show (if c.dim = 3 then _ else t.z).testBit j = false
          rw [if_neg hd]
          rw [if_neg hd] at hz
          rw [hz]
          exact Nat.zero_testBit j
  · show type_at_spec c (t8_dtri_parent c t) 0 = 0
    unfold type_at_spec
    rw [Nat.sub_zero, show (t8_dtri_parent c t).level = t.level - 1 from rfl,
      type_at_aux_parent c t hl hcube, show t.level - 1 + 1 = t.level by omega]
    unfold type_at_spec at hchain
    rw [Nat.sub_zero] at hchain
    exact hchain

/-- Field-wise extensionality for the element record. -/
lemma dtri_ext (a b : Dtri) (h1 : a.level = b.level) (h2 : a.type = b.type)
    (h3 : a.x = b.x) (h4 : a.y = b.y) (h5 : a.z = b.z) : a = b := by
  cases a
  cases b
  simp_all

/-- A coordinate that is in range and has no set bit below the root level is
zero. -/
lemma eq_zero_of_bits (x : Nat) (hx : x < T8_DTRI_ROOT_LEN)
    (h : ∀ j, j < T8_DTRI_MAXLEVEL → x.testBit j = false) : x = 0 := by
  apply Nat.eq_of_testBit_eq
  intro j
  rw [Nat.zero_testBit]
  rcases Nat.lt_or_ge j T8_DTRI_MAXLEVEL with hj | hj
  · exact h j hj
  · refine Nat.testBit_lt_two_pow (lt_of_lt_of_le hx ?_)
    have e : T8_DTRI_ROOT_LEN = 2 ^ T8_DTRI_MAXLEVEL := Nat.one_shiftLeft _
    rw [e]
    exact Nat.pow_le_pow_right (by norm_num) hj

/-- Applying `init_step` with the element's own local index to its parent
(relabelled to the child level) reconstructs the element. -/
lemma init_step_parent_eq (c : T8Conn) (hc : ConnGood c) (t : Dtri)
    (hv : t8_dtri_valid c t) (n : Nat) (hlev : t.level = n + 1) :
    init_step c (T8_DTRI_MAXLEVEL - (n + 1))
      (c.type_cid_to_Iloc t.type (compute_cubeid c t (n + 1)))
      (setLevel (t8_dtri_parent c t) (n + 1)) = t := by
  obtain ⟨hl21, hty, hx, hy, hz, halign, hchain⟩ := hv
  have hroot : T8_DTRI_ROOT_LEN < 4294967296 := by decide
  have hx32 : t.x < 4294967296 := lt_trans hx hroot
  have hy32 : t.y < 4294967296 := lt_trans hy hroot
  have hz32 : t.z < 4294967296 := by
    by_cases hd : c.dim = 3
    · rw [if_pos hd] at hz
      exact lt_trans hz hroot
    · rw [if_neg hd] at hz
      omega
  have hcid_lt : compute_cubeid c t (n + 1) < 2 ^ c.dim := compute_cubeid_lt c hc.1 t _
  have hP1 := hc.2.1 _ hcid_lt t.type hty
  have hptype : (t8_dtri_parent c t).type =
      c.cid_type_to_parenttype (compute_cubeid c t (n + 1)) t.type := by
    show c.cid_type_to_parenttype (compute_cubeid c t t.level) t.type = _
    rw [hlev]
  have hbits := compute_cubeid_bits c hc.1 t (n + 1) (by omega)
  have hsp := parent_spec_of_bounds c t hx32 hy32 hz32
  have hcid' : c.parenttype_Iloc_to_cid (t8_dtri_parent c t).type
      (c.type_cid_to_Iloc t.type (compute_cubeid c t (n + 1))) = compute_cubeid c t (n + 1) := by
    rw [hptype]
    exact hP1.2.2.2
  have hty' : c.parenttype_Iloc_to_type (t8_dtri_parent c t).type
      (c.type_cid_to_Iloc t.type (compute_cubeid c t (n + 1))) = t.type := by
    rw [hptype]
    exact hP1.2.2.1
  have hpos_eq : T8_DTRI_MAXLEVEL - t.level = T8_DTRI_MAXLEVEL - (n + 1) := by rw [hlev]
  refine dtri_ext _ _ ?_ ?_ ?_ ?_ ?_
  · show n + 1 = t.level
    omega
  · show c.parenttype_Iloc_to_type (t8_dtri_parent c t).type _ = t.type
    exact hty'
  · show (t8_dtri_parent c t).x |||
        (if c.parenttype_Iloc_to_cid (t8_dtri_parent c t).type
            (c.type_cid_to_Iloc t.type (compute_cubeid c t (n + 1))) &&& 1 ≠ 0 then
          1 <<< (T8_DTRI_MAXLEVEL - (n + 1)) else 0) = t.x
    rw [hcid']
    apply Nat.eq_of_testBit_eq
    intro q
    rw [Nat.testBit_or]
    have hpx := ((hsp.2.2 q).1 : (t8_dtri_parent c t).x.testBit q = _)
    rw [hpos_eq] at hpx
    by_cases hq : q = T8_DTRI_MAXLEVEL - (n + 1)
    · subst hq
      rw [hpx]
      simp only [decide_eq_true_eq]
      by_cases hb : compute_cubeid c t (n + 1) &&& 1 ≠ 0
      · rw [if_pos hb, Nat.one_shiftLeft, Nat.testBit_two_pow]
        have := hbits.1.mp hb
        simp [this]
      · rw [if_neg hb]
        have hxf : t.x.testBit (T8_DTRI_MAXLEVEL - (n + 1)) = false := by
          rcases hxb : t.x.testBit (T8_DTRI_MAXLEVEL - (n + 1)) with _ | _
          · rfl
          · exact absurd (hbits.1.mpr hxb) hb
        rw [hxf]
        simp
    · rw [hpx]
      have hv0 : (if compute_cubeid c t (n + 1) &&& 1 ≠ 0 then
          1 <<< (T8_DTRI_MAXLEVEL - (n + 1)) else 0).testBit q = false := by
        split_ifs
        · rw [Nat.one_shiftLeft, Nat.testBit_two_pow]
          have hq2 : ¬(T8_DTRI_MAXLEVEL - (n + 1) = q) := fun h => hq h.symm
          simp [hq2]
        · exact Nat.zero_testBit q
      rw [hv0]
      simp [hq]
  · show (t8_dtri_parent c t).y |||
        (if c.parenttype_Iloc_to_cid (t8_dtri_parent c t).type
            (c.type_cid_to_Iloc t.type (compute_cubeid c t (n + 1))) &&& 2 ≠ 0 then
          1 <<< (T8_DTRI_MAXLEVEL - (n + 1)) else 0) = t.y
    rw [hcid']
    apply Nat.eq_of_testBit_eq
    intro q
    rw [Nat.testBit_or]
    have hpy := ((hsp.2.2 q).2.1 : (t8_dtri_parent c t).y.testBit q = _)
    rw [hpos_eq] at hpy
    by_cases hq : q = T8_DTRI_MAXLEVEL - (n + 1)
    · subst hq
      rw [hpy]
      simp only [decide_eq_true_eq]
      by_cases hb : compute_cubeid c t (n + 1) &&& 2 ≠ 0
      · rw [if_pos hb, Nat.one_shiftLeft, Nat.testBit_two_pow]
        have := hbits.2.1.mp hb
        simp [this]
      · rw [if_neg hb]
        have hyf : t.y.testBit (T8_DTRI_MAXLEVEL - (n + 1)) = false := by
          rcases hyb : t.y.testBit (T8_DTRI_MAXLEVEL - (n + 1)) with _ | _
          · rfl
          · exact absurd (hbits.2.1.mpr hyb) hb
        rw [hyf]
        simp
    · rw [hpy]
      have hv0 : (if compute_cubeid c t (n + 1) &&& 2 ≠ 0 then
          1 <<< (T8_DTRI_MAXLEVEL - (n + 1)) else 0).testBit q = false := by
        split_ifs
        · rw [Nat.one_shiftLeft, Nat.testBit_two_pow]
          have hq2 : ¬(T8_DTRI_MAXLEVEL - (n + 1) = q) := fun h => hq h.symm
          simp [hq2]
        · exact Nat.zero_testBit q
      rw [hv0]
      simp [hq]
  · by_cases hd : c.dim = 3
    · show (if c.dim = 3 then
          (t8_dtri_parent c t).z |||
            (if c.parenttype_Iloc_to_cid (t8_dtri_parent c t).type
                (c.type_cid_to_Iloc t.type (compute_cubeid c t (n + 1))) &&& 4 ≠ 0 then
              1 <<< (T8_DTRI_MAXLEVEL - (n + 1)) else 0)
        else (t8_dtri_parent c t).z) = t.z
      rw [if_pos hd, hcid']
      apply Nat.eq_of_testBit_eq
      intro q
      rw [Nat.testBit_or]
      have hpz := ((hsp.2.2 q).2.2 hd : (t8_dtri_parent c t).z.testBit q = _)
      rw [hpos_eq] at hpz
      by_cases hq : q = T8_DTRI_MAXLEVEL - (n + 1)
      · subst hq
        rw [hpz]
        simp only [decide_eq_true_eq]
        by_cases hb : compute_cubeid c t (n + 1) &&& 4 ≠ 0
        · rw [if_pos hb, Nat.one_shiftLeft, Nat.testBit_two_pow]
          have := (hbits.2.2 hd).mp hb
          simp [this]
        · rw [if_neg hb]
          have hzf : t.z.testBit (T8_DTRI_MAXLEVEL - (n + 1)) = false := by
            rcases hzb : t.z.testBit (T8_DTRI_MAXLEVEL - (n + 1)) with _ | _
            · rfl
            · exact absurd ((hbits.2.2 hd).mpr hzb) hb
          rw [hzf]
          simp
      · rw [hpz]
        have hv0 : (if compute_cubeid c t (n + 1) &&& 4 ≠ 0 then
            1 <<< (T8_DTRI_MAXLEVEL - (n + 1)) else 0).testBit q = false := by
          split_ifs
          · rw [Nat.one_shiftLeft, Nat.testBit_two_pow]
            have hq2 : ¬(T8_DTRI_MAXLEVEL - (n + 1) = q) := fun h => hq h.symm
            simp [hq2]
          · exact Nat.zero_testBit q
        rw [hv0]
        simp [hq]
    · show (if c.dim = 3 then
          (t8_dtri_parent c t).z |||
            (if c.parenttype_Iloc_to_cid (t8_dtri_parent c t).type
                (c.type_cid_to_Iloc t.type (compute_cubeid c t (n + 1))) &&& 4 ≠ 0 then
              1 <<< (T8_DTRI_MAXLEVEL - (n + 1)) else 0)
        else (t8_dtri_parent c t).z) = t.z
      rw [if_neg hd]
      show (if c.dim = 3 then t.z &&& (4294967295 ^^^ T8_DTRI_LEN t.level) else t.z) = t.z
      rw [if_neg hd]

/-- Round trip of `linear_id` and `init_linear_id` for any consistent
connectivity record: re-initialising a valid element from its linear id at its
own level reproduces it. -/
lemma roundtrip_generic (c : T8Conn) (hc : ConnGood c) :
    ∀ (n : Nat) (t : Dtri), t8_dtri_valid c t → t.level = n →
      t8_dtri_init_linear_id c (t8_dtri_linear_id c t t.level) t.level = t := by
  intro n
  induction n with
  | zero =>
    intro t hv hlev
    obtain ⟨hl21, hty0, hx, hy, hz, halign, hchain⟩ := hv
    have hid : t8_dtri_linear_id c t t.level = 0 := by
      rw [linear_id_own, hlev]
      rfl
    rw [hid, hlev]
    have htype : t.type = 0 := by
      unfold type_at_spec at hchain
      rw [Nat.sub_zero, hlev] at hchain
      exact hchain
    have hbits : ∀ j, j < T8_DTRI_MAXLEVEL →
        t.x.testBit j = false ∧ t.y.testBit j = false ∧ t.z.testBit j = false := by
      intro j hj
      refine halign j ?_
      rw [hlev]
      simpa using hj
    have hx0 : t.x = 0 := eq_zero_of_bits t.x hx (fun j hj => (hbits j hj).1)
    have hy0 : t.y = 0 := eq_zero_of_bits t.y hy (fun j hj => (hbits j hj).2.1)
    have hz0 : t.z = 0 := by
      by_cases hd : c.dim = 3
      · rw [if_pos hd] at hz
        exact eq_zero_of_bits t.z hz (fun j hj => (hbits j hj).2.2)
      · rw [if_neg hd] at hz
        exact hz
    have hroot_eq : t = ({ level := 0, type := 0, x := 0, y := 0, z := 0 } : Dtri) :=
      dtri_ext _ _ (by rw [hlev]) (by rw [htype]) (by rw [hx0]) (by rw [hy0]) (by rw [hz0])
    rw [hroot_eq]
    rfl
  | succ n ih =>
    intro t hv hlev
    have hv' := hv
    obtain ⟨hl21, hty, hx, hy, hz, halign, hchain⟩ := hv'
    have hroot : T8_DTRI_ROOT_LEN < 4294967296 := by decide
    have hx32 : t.x < 4294967296 := lt_trans hx hroot
    have hy32 : t.y < 4294967296 := lt_trans hy hroot
    have hz32 : t.z < 4294967296 := by
      by_cases hd : c.dim = 3
      · rw [if_pos hd] at hz
        exact lt_trans hz hroot
      · rw [if_neg hd] at hz
        omega
    have hpos : 0 < t.level := by omega
    have hVP := valid_parent c hc t hv hpos
    have hplev : (t8_dtri_parent c t).level = n := by
      show t.level - 1 = n
      omega
    have hcid_lt : compute_cubeid c t (n + 1) < 2 ^ c.dim := compute_cubeid_lt c hc.1 t _
    have hP1 := hc.2.1 _ hcid_lt t.type hty
    have hcube := parent_cubeid_eq c t hx32 hy32 hz32 hl21
    have hptype : (t8_dtri_parent c t).type =
        c.cid_type_to_parenttype (compute_cubeid c t (n + 1)) t.type := by
      show c.cid_type_to_parenttype (compute_cubeid c t t.level) t.type = _
      rw [hlev]
    have hsplit : t8_dtri_linear_id c t t.level =
        c.type_cid_to_Iloc t.type (compute_cubeid c t (n + 1)) +
          2 ^ c.dim * t8_dtri_linear_id c (t8_dtri_parent c t) (t8_dtri_parent c t).level := by
      rw [linear_id_own c t, linear_id_own c (t8_dtri_parent c t), hlev, hplev]
      show c.type_cid_to_Iloc t.type (compute_cubeid c t (n + 1)) +
          2 ^ c.dim * linear_id_aux c t n
            (c.cid_type_to_parenttype (compute_cubeid c t (n + 1)) t.type) = _
      have hmul : linear_id_aux c t n
          (c.cid_type_to_parenttype (compute_cubeid c t (n + 1)) t.type) =
          linear_id_aux c (t8_dtri_parent c t) n (t8_dtri_parent c t).type := by
        rw [← hptype]
        exact linear_id_aux_congr c t (t8_dtri_parent c t) n
          (fun i _ h2 => (hcube i (by omega)).symm) _
      rw [hmul]
    have hdig : (c.type_cid_to_Iloc t.type (compute_cubeid c t (n + 1)) +
        2 ^ c.dim * t8_dtri_linear_id c (t8_dtri_parent c t) (t8_dtri_parent c t).level) >>>
          c.dim =
        t8_dtri_linear_id c (t8_dtri_parent c t) (t8_dtri_parent c t).level := by
      rw [Nat.shiftRight_eq_div_pow,
        Nat.add_mul_div_left _ _ (Nat.pos_pow_of_pos _ (by norm_num)),
        Nat.div_eq_of_lt hP1.2.1]
      exact Nat.zero_add _
    have hmod : (c.type_cid_to_Iloc t.type (compute_cubeid c t (n + 1)) +
        2 ^ c.dim * t8_dtri_linear_id c (t8_dtri_parent c t) (t8_dtri_parent c t).level) &&&
          (2 ^ c.dim - 1) =
        c.type_cid_to_Iloc t.type (compute_cubeid c t (n + 1)) := by
      rw [and_two_pow_sub_one, Nat.add_mul_mod_self_left]
      exact Nat.mod_eq_of_lt hP1.2.1
    have hIH : t8_dtri_init_linear_id c
        (t8_dtri_linear_id c t t.level >>> c.dim) n = t8_dtri_parent c t := by
      rw [hsplit, hdig, hplev]
      have := ih (t8_dtri_parent c t) hVP.1 hplev
      rw [hplev] at this
      exact this
    rw [hsplit, hlev, init_linear_id_succ, ← hsplit, hIH]
    rw [hsplit, hmod]
    exact init_step_parent_eq c hc t hv n hlev

/-- C3: for every valid triangle and every valid tetrahedron,
`t8_dtri_init_linear_id (t8_dtri_linear_id t t.level) t.level` reproduces the
element exactly (level, type and anchor coordinates). -/
theorem C3_linear_id_round_trip :
    (∀ t : Dtri, t8_dtri_valid t8_dtri_conn t →
      t8_dtri_init_linear_id t8_dtri_conn (t8_dtri_linear_id t8_dtri_conn t t.level)
        t.level = t) ∧
    (∀ t : Dtri, t8_dtri_valid t8_dtet_conn t →
      t8_dtri_init_linear_id t8_dtet_conn (t8_dtri_linear_id t8_dtet_conn t t.level)
        t.level = t) :=
  ⟨fun t hv => roundtrip_generic t8_dtri_conn t8_dtri_conn_good t.level t hv rfl,
   fun t hv => roundtrip_generic t8_dtet_conn t8_dtet_conn_good t.level t hv rfl⟩

/-- Witness for C3: the round trip applied to a concrete valid level-2
triangle and a concrete valid level-1 tetrahedron. -/
theorem C3_linear_id_round_trip_witness :
    t8_dtri_init_linear_id t8_dtri_conn
      (t8_dtri_linear_id t8_dtri_conn ⟨2, 0, 1048576, 524288, 0⟩ 2) 2 =
        ⟨2, 0, 1048576, 524288, 0⟩ ∧
    t8_dtri_init_linear_id t8_dtet_conn
      (t8_dtri_linear_id t8_dtet_conn ⟨1, 0, 1048576, 0, 0⟩ 1) 1 =
        ⟨1, 0, 1048576, 0, 0⟩ :=
  ⟨C3_linear_id_round_trip.1 ⟨2, 0, 1048576, 524288, 0⟩ (by decide),
   C3_linear_id_round_trip.2 ⟨1, 0, 1048576, 0, 0⟩ (by decide)⟩

/-- The low bit of an extracted Morton half is the low bit of the id. -/
lemma morton_extract_and_one (l id : Nat) : morton_extract (l + 1) id &&& 1 = id &&& 1 := by
  show ((id &&& 1) + 2 * morton_extract l (id >>> 2)) &&& 1 = id &&& 1
  rw [Nat.and_one_is_mod, Nat.and_one_is_mod, Nat.add_mul_mod_self_left]
  omega

/-- Shifting an extracted Morton half drops to the extraction of `id >>> 2`. -/
lemma morton_extract_shift (l id : Nat) :
    morton_extract (l + 1) id >>> 1 = morton_extract l (id >>> 2) := by
  show ((id &&& 1) + 2 * morton_extract l (id >>> 2)) >>> 1 = morton_extract l (id >>> 2)
  rw [Nat.shiftRight_eq_div_pow]
  have h1 : id &&& 1 < 2 := by
    rw [Nat.and_one_is_mod]
    omega
  have e : (2 : Nat) ^ 1 = 2 := by norm_num
  rw [e]
  omega

/-- Interleaving disjoint single bits is addition. -/
lemma or_bit_pair (a b : Nat) (ha : a ≤ 1) (hb : b ≤ 1) : a ||| (b <<< 1) = a + 2 * b := by
  interval_cases a <;> interval_cases b <;> decide

/-- Re-interleaving the two extracted halves of a Morton id reproduces it. -/
lemma morton_roundtrip :
    ∀ (l id : Nat), id < 4 ^ l →
      morton_interleave l (morton_extract l id) (morton_extract l (id >>> 1)) = id := by
  intro l
  induction l with
  | zero =>
    intro id hid
    show 0 = id
    omega
  | succ l ih =>
    intro id hid
    show ((morton_extract (l + 1) id &&& 1) |||
        ((morton_extract (l + 1) (id >>> 1) &&& 1) <<< 1)) +
        4 * morton_interleave l (morton_extract (l + 1) id >>> 1)
          (morton_extract (l + 1) (id >>> 1) >>> 1) = id
    have h1 : id &&& 1 ≤ 1 := by
      rw [Nat.and_one_is_mod]
      omega
    have h2 : (id >>> 1) &&& 1 ≤ 1 := by
      rw [Nat.and_one_is_mod]
      omega
    have e31 : (id >>> 1) >>> 2 = (id >>> 2) >>> 1 := by
      rw [← Nat.shiftRight_add, ← Nat.shiftRight_add]
    have hsub : id >>> 2 < 4 ^ l := by
      rw [Nat.shiftRight_eq_div_pow]
      have : (2 : Nat) ^ 2 = 4 := by norm_num
      rw [this]
      have h4 : (4 : Nat) ^ (l + 1) = 4 * 4 ^ l := by ring
      rw [h4] at hid
      omega
    rw [morton_extract_and_one, morton_extract_and_one, morton_extract_shift,
      morton_extract_shift, e31, ih (id >>> 2) hsub,
      or_bit_pair _ _ h1 h2]
    rw [Nat.and_one_is_mod, Nat.and_one_is_mod, Nat.shiftRight_eq_div_pow,
      Nat.shiftRight_eq_div_pow]
    have e1 : (2 : Nat) ^ 1 = 2 := by norm_num
    have e2 : (2 : Nat) ^ 2 = 4 := by norm_num
    rw [e1, e2]
    omega

/-- The quad scheme's successor advances the Morton id by one. -/
lemma quad_successor_id (q : Pquad) (level : Nat)
    (h : p4est_quadrant_linear_id q level + 1 < 4 ^ level) :
    p4est_quadrant_linear_id (t8_default_quad_successor q level) level =
      p4est_quadrant_linear_id q level + 1 := by
  show morton_interleave level
      ((morton_extract level (p4est_quadrant_linear_id q level + 1) <<<
          (P4EST_MAXLEVEL - level)) >>> (P4EST_MAXLEVEL - level))
      ((morton_extract level ((p4est_quadrant_linear_id q level + 1) >>> 1) <<<
          (P4EST_MAXLEVEL - level)) >>> (P4EST_MAXLEVEL - level)) = _
  rw [Nat.shiftLeft_shiftRight, Nat.shiftLeft_shiftRight]
  exact morton_roundtrip level _ h

/-- The linear id of the level-`j` ancestor of `t`: the digit walk over the
coarsest `j` levels started at the ancestor's type. -/
def anc_id (c : T8Conn) (t : Dtri) (j : Nat) : Nat :=
  linear_id_aux c t j (type_at_spec c t j)

/-- At the element's own level, `linear_id` is the ancestor id. -/
lemma anc_id_own (c : T8Conn) (t : Dtri) :
    t8_dtri_linear_id c t t.level = anc_id c t t.level := by
  rw [linear_id_own]
  unfold anc_id
  rw [type_at_spec_own]

/-- Peeling the finest digit off an ancestor id. -/
lemma anc_id_step (c : T8Conn) (t : Dtri) (j : Nat) (h2 : j + 1 ≤ t.level) :
    anc_id c t (j + 1) =
      c.type_cid_to_Iloc (type_at_spec c t (j + 1)) (compute_cubeid c t (j + 1)) +
        2 ^ c.dim * anc_id c t j := by
  unfold anc_id
  show c.type_cid_to_Iloc _ _ + 2 ^ c.dim * linear_id_aux c t j
      (c.cid_type_to_parenttype (compute_cubeid c t (j + 1)) (type_at_spec c t (j + 1))) = _
  have hstep := type_at_spec_step c t (j + 1) (by omega) h2
  rw [Nat.add_sub_cancel] at hstep
  rw [← hstep]

/-- `compute_type` coincides with the element's type at all levels in
`[1, t.level]` (the loop of the C source does not execute there). -/
lemma compute_type_le (c : T8Conn) (t : Dtri) (lv : Nat) (h1 : 1 ≤ lv)
    (h2 : lv ≤ t.level) : compute_type c t lv = t.type := by
  unfold compute_type
  by_cases he : lv = t.level
  · rw [if_pos he]
  · rw [if_neg he, if_neg (by omega)]
    have e : lv - t.level = 0 := by omega
    rw [e]
    rfl

/-- `Int.toNat` arithmetic of the `succ_pred` local index for increment 1. -/
lemma toNat_mod_succ (a d : Nat) :
    (((a : Int) + 2 ^ d + 1).toNat) % 2 ^ d = (a + 1) % 2 ^ d := by
  have e : ((a : Int) + 2 ^ d + 1) = ((a + 2 ^ d + 1 : Nat) : Int) := by
    push_cast
    ring
  rw [e, Int.toNat_natCast]
  have e2 : a + 2 ^ d + 1 = (a + 1) + 2 ^ d := by ring
  rw [e2, Nat.add_mod_right]

/-- The coordinate/type write-back performed by one `succ_pred` frame at level
`j + 1` on buffer `s'` with local index `li` and parent type `tp1` (proof
helper naming the record literal of the embedding). -/
def succ_write (c : T8Conn) (s' : Dtri) (j : Nat) (li tp1 : Nat) : Dtri :=
  { level := j + 1
    type := c.parenttype_Iloc_to_type tp1 li
    x := if c.parenttype_Iloc_to_cid tp1 li &&& 1 ≠ 0 then
           s'.x ||| 1 <<< (T8_DTRI_MAXLEVEL - (j + 1))
         else s'.x &&& (4294967295 ^^^ 1 <<< (T8_DTRI_MAXLEVEL - (j + 1)))
    y := if c.parenttype_Iloc_to_cid tp1 li &&& 2 ≠ 0 then
           s'.y ||| 1 <<< (T8_DTRI_MAXLEVEL - (j + 1))
         else s'.y &&& (4294967295 ^^^ 1 <<< (T8_DTRI_MAXLEVEL - (j + 1)))
    z := if c.dim = 3 then
           (if c.parenttype_Iloc_to_cid tp1 li &&& 4 ≠ 0 then
             s'.z ||| 1 <<< (T8_DTRI_MAXLEVEL - (j + 1))
           else s'.z &&& (4294967295 ^^^ 1 <<< (T8_DTRI_MAXLEVEL - (j + 1))))
         else s'.z }

/-- Projection of the `level` field of `succ_write`. -/
lemma succ_write_level (c : T8Conn) (s' : Dtri) (j li tp1 : Nat) :
    (succ_write c s' j li tp1).level = j + 1 := rfl

/-- Projection of the `type` field of `succ_write`. -/
lemma succ_write_type (c : T8Conn) (s' : Dtri) (j li tp1 : Nat) :
    (succ_write c s' j li tp1).type = c.parenttype_Iloc_to_type tp1 li := rfl

/-- Projection of the `x` write in `succ_write`. -/
lemma succ_write_x (c : T8Conn) (s' : Dtri) (j li tp1 : Nat) :
    (succ_write c s' j li tp1).x =
      if c.parenttype_Iloc_to_cid tp1 li &&& 1 ≠ 0 then
        s'.x ||| 1 <<< (T8_DTRI_MAXLEVEL - (j + 1))
      else s'.x &&& (4294967295 ^^^ 1 <<< (T8_DTRI_MAXLEVEL - (j + 1))) := rfl

/-- Projection of the `y` write in `succ_write`. -/
lemma succ_write_y (c : T8Conn) (s' : Dtri) (j li tp1 : Nat) :
    (succ_write c s' j li tp1).y =
      if c.parenttype_Iloc_to_cid tp1 li &&& 2 ≠ 0 then
        s'.y ||| 1 <<< (T8_DTRI_MAXLEVEL - (j + 1))
      else s'.y &&& (4294967295 ^^^ 1 <<< (T8_DTRI_MAXLEVEL - (j + 1))) := rfl

/-- Projection of the `z` write in `succ_write`. -/
lemma succ_write_z (c : T8Conn) (s' : Dtri) (j li tp1 : Nat) :
    (succ_write c s' j li tp1).z =
      if c.dim = 3 then
        (if c.parenttype_Iloc_to_cid tp1 li &&& 4 ≠ 0 then
          s'.z ||| 1 <<< (T8_DTRI_MAXLEVEL - (j + 1))
        else s'.z &&& (4294967295 ^^^ 1 <<< (T8_DTRI_MAXLEVEL - (j + 1))))
      else s'.z := rfl

/-- A non-wrapping `succ_pred` frame writes the incremented local index over
the unchanged buffer. -/
lemma succ_pred_step_no_wrap (c : T8Conn) (t s : Dtri) (j : Nat)
    (hw : (c.type_cid_to_Iloc (compute_type c t (j + 1)) (compute_cubeid c t (j + 1)) + 1) %
        2 ^ c.dim ≠ 0) :
    t8_dtri_succ_pred_recursion c t s (j + 1) 1 =
      succ_write c s j
        ((c.type_cid_to_Iloc (compute_type c t (j + 1)) (compute_cubeid c t (j + 1)) + 1) %
          2 ^ c.dim)
        (c.cid_type_to_parenttype (compute_cubeid c t (j + 1)) (compute_type c t (j + 1))) := by
  rw [t8_dtri_succ_pred_recursion, if_neg (by norm_num)]
  simp only [toNat_mod_succ, if_neg hw]
  rfl

/-- A wrapping `succ_pred` frame recurses one level up and writes local index
0 with the recursion result's type. -/
lemma succ_pred_step_wrap (c : T8Conn) (t s : Dtri) (j : Nat)
    (hw : (c.type_cid_to_Iloc (compute_type c t (j + 1)) (compute_cubeid c t (j + 1)) + 1) %
        2 ^ c.dim = 0) :
    t8_dtri_succ_pred_recursion c t s (j + 1) 1 =
      succ_write c (t8_dtri_succ_pred_recursion c t s j 1) j 0
        (t8_dtri_succ_pred_recursion c t s j 1).type := by
  rw [t8_dtri_succ_pred_recursion, if_neg (by norm_num)]
  have hsign : (if (1 : Int) < 0 then (-1 : Int) else if 0 < (1 : Int) then 1 else 0) = 1 := by
    norm_num
  simp only [toNat_mod_succ, hw, if_pos rfl, hsign]
  rfl

/-- Bits outside the written position are preserved by both write branches. -/
lemma write_bit_preserve (u : Nat) (hu : u < 4294967296) (p q : Nat) (hp : p < 32)
    (hne : q ≠ p) :
    ((u ||| 1 <<< p).testBit q = u.testBit q) ∧
    ((u &&& (4294967295 ^^^ 1 <<< p)).testBit q = u.testBit q) := by
  have hpq : ¬(p = q) := fun h => hne h.symm
  have hm : (2 : Nat) ^ p < 4294967296 := by
    have h32 : (4294967296 : Nat) = 2 ^ 32 := by norm_num
    rw [h32]
    exact Nat.pow_lt_pow_right (by norm_num) hp
  constructor
  · rw [Nat.testBit_or, Nat.one_shiftLeft, Nat.testBit_two_pow]
    simp [hpq]
  · rw [Nat.one_shiftLeft, and_not32_testBit u _ q hu hm, Nat.testBit_two_pow]
    simp [hpq]

/-- Reassembling a cube-id from its three bit tests. -/
lemma cid_recompose (dim v : Nat) (hdim : dim = 2 ∨ dim = 3) (hv : v < 2 ^ dim) :
    (if v &&& 1 ≠ 0 then 1 else 0) + (if v &&& 2 ≠ 0 then 2 else 0) +
      (if dim = 3 then (if v &&& 4 ≠ 0 then 4 else 0) else 0) = v := by
  rcases hdim with hd | hd <;> subst hd
  · have hv4 : v < 4 := by
      have e : (2 : Nat) ^ 2 = 4 := by norm_num
      rw [e] at hv
      exact hv
    interval_cases v <;> decide
  · have hv8 : v < 8 := by
      have e : (2 : Nat) ^ 3 = 8 := by norm_num
      rw [e] at hv
      exact hv
    interval_cases v <;> decide

/-- The cube-id of a `succ_write` result at its own level is the written
cube-id. -/
lemma cubeid_succ_write_own (c : T8Conn) (hdim : c.dim = 2 ∨ c.dim = 3) (s' : Dtri)
    (j li tp1 : Nat) (hcid : c.parenttype_Iloc_to_cid tp1 li < 2 ^ c.dim)
    (hx : s'.x < 4294967296) (hy : s'.y < 4294967296) (hz : s'.z < 4294967296) :
    compute_cubeid c (succ_write c s' j li tp1) (j + 1) =
      c.parenttype_Iloc_to_cid tp1 li := by
  have hp32 : (2 : Nat) ^ (T8_DTRI_MAXLEVEL - (j + 1)) < 4294967296 := by
    have h32 : (4294967296 : Nat) = 2 ^ 32 := by norm_num
    rw [h32]
    refine Nat.pow_lt_pow_right (by norm_num) ?_
    unfold T8_DTRI_MAXLEVEL
    omega
  have hset : ∀ u : Nat,
      (u ||| 1 <<< (T8_DTRI_MAXLEVEL - (j + 1))).testBit (T8_DTRI_MAXLEVEL - (j + 1)) =
        true := by
    intro u
    rw [Nat.testBit_or, Nat.one_shiftLeft, Nat.testBit_two_pow]
    simp
  have hclr : ∀ u : Nat, u < 4294967296 →
      (u &&& (4294967295 ^^^ 1 <<< (T8_DTRI_MAXLEVEL - (j + 1)))).testBit
        (T8_DTRI_MAXLEVEL - (j + 1)) = false := by
    intro u hu
    rw [Nat.one_shiftLeft, and_not32_testBit u _ _ hu hp32, Nat.testBit_two_pow]
    simp
  have hxbit : (succ_write c s' j li tp1).x.testBit (T8_DTRI_MAXLEVEL - (j + 1)) =
      decide (c.parenttype_Iloc_to_cid tp1 li &&& 1 ≠ 0) := by
    rw [succ_write_x]
    by_cases hb : c.parenttype_Iloc_to_cid tp1 li &&& 1 ≠ 0
    · rw [if_pos hb, hset]
      exact (decide_eq_true hb).symm
    · rw [if_neg hb, hclr s'.x hx]
      exact (decide_eq_false hb).symm
  have hybit : (succ_write c s' j li tp1).y.testBit (T8_DTRI_MAXLEVEL - (j + 1)) =
      decide (c.parenttype_Iloc_to_cid tp1 li &&& 2 ≠ 0) := by
    rw [succ_write_y]
    by_cases hb : c.parenttype_Iloc_to_cid tp1 li &&& 2 ≠ 0
    · rw [if_pos hb, hset]
      exact (decide_eq_true hb).symm
    · rw [if_neg hb, hclr s'.y hy]
      exact (decide_eq_false hb).symm
  rw [compute_cubeid_eq c _ (j + 1) (by omega), hxbit, hybit]
  rcases hdim with hd | hd
  · rw [if_neg (by omega : ¬c.dim = 3)]
    have hrec := cid_recompose c.dim (c.parenttype_Iloc_to_cid tp1 li) (Or.inl hd) hcid
    rw [if_neg (by omega : ¬c.dim = 3)] at hrec
    simp only [decide_eq_true_eq]
    exact hrec
  · have hzbit : (succ_write c s' j li tp1).z.testBit (T8_DTRI_MAXLEVEL - (j + 1)) =
        decide (c.parenttype_Iloc_to_cid tp1 li &&& 4 ≠ 0) := by
      rw [succ_write_z, if_pos hd]
      by_cases hb : c.parenttype_Iloc_to_cid tp1 li &&& 4 ≠ 0
      · rw [if_pos hb, hset]
        exact (decide_eq_true hb).symm
      · rw [if_neg hb, hclr s'.z hz]
        exact (decide_eq_false hb).symm
    rw [if_pos hd, hzbit]
    have hrec := cid_recompose c.dim (c.parenttype_Iloc_to_cid tp1 li) (Or.inr hd) hcid
    rw [if_pos hd] at hrec
    simp only [decide_eq_true_eq]
    exact hrec

/-- The cube-ids of a `succ_write` result at coarser levels agree with the
buffer's. -/
lemma cubeid_succ_write_lower (c : T8Conn) (s' : Dtri) (j li tp1 : Nat)
    (hx : s'.x < 4294967296) (hy : s'.y < 4294967296) (hz : s'.z < 4294967296)
    (hj : j + 1 ≤ T8_DTRI_MAXLEVEL) :
    ∀ i, i ≤ j → compute_cubeid c (succ_write c s' j li tp1) i = compute_cubeid c s' i := by
  intro i hi
  rcases Nat.eq_zero_or_pos i with h0 | h0
  · subst h0
    rfl
  · have hne : T8_DTRI_MAXLEVEL - i ≠ T8_DTRI_MAXLEVEL - (j + 1) := by
      unfold T8_DTRI_MAXLEVEL at hj ⊢
      omega
    have hp32 : T8_DTRI_MAXLEVEL - (j + 1) < 32 := by
      unfold T8_DTRI_MAXLEVEL
      omega
    refine compute_cubeid_congr c _ s' i ?_ ?_ ?_
    · rw [succ_write_x]
      split_ifs
      · exact (write_bit_preserve s'.x hx _ _ hp32 hne).1
      · exact (write_bit_preserve s'.x hx _ _ hp32 hne).2
    · rw [succ_write_y]
      split_ifs
      · exact (write_bit_preserve s'.y hy _ _ hp32 hne).1
      · exact (write_bit_preserve s'.y hy _ _ hp32 hne).2
    · rw [succ_write_z]
      split_ifs
      · exact (write_bit_preserve s'.z hz _ _ hp32 hne).1
      · exact (write_bit_preserve s'.z hz _ _ hp32 hne).2
      · rfl

/-- `succ_write` keeps the coordinates inside the root grid. -/
lemma succ_write_bounds (c : T8Conn) (s' : Dtri) (j li tp1 : Nat)
    (hx : s'.x < T8_DTRI_ROOT_LEN) (hy : s'.y < T8_DTRI_ROOT_LEN)
    (hz : s'.z < T8_DTRI_ROOT_LEN) (hj : j + 1 ≤ T8_DTRI_MAXLEVEL) :
    (succ_write c s' j li tp1).x < T8_DTRI_ROOT_LEN ∧
    (succ_write c s' j li tp1).y < T8_DTRI_ROOT_LEN ∧
    (succ_write c s' j li tp1).z < T8_DTRI_ROOT_LEN := by
  have hroot : T8_DTRI_ROOT_LEN = 2 ^ T8_DTRI_MAXLEVEL := Nat.one_shiftLeft _
  have hbit : 1 <<< (T8_DTRI_MAXLEVEL - (j + 1)) < T8_DTRI_ROOT_LEN := by
    rw [hroot, Nat.one_shiftLeft]
    refine Nat.pow_lt_pow_right (by norm_num) ?_
    unfold T8_DTRI_MAXLEVEL
    omega
  refine ⟨?_, ?_, ?_⟩
  · rw [succ_write_x]
    split_ifs
    · rw [hroot] at hx hbit ⊢
      exact Nat.or_lt_two_pow hx hbit
    · exact lt_of_le_of_lt Nat.and_le_left hx
  · rw [succ_write_y]
    split_ifs
    · rw [hroot] at hy hbit ⊢
      exact Nat.or_lt_two_pow hy hbit
    · exact lt_of_le_of_lt Nat.and_le_left hy
  · rw [succ_write_z]
    split_ifs
    · rw [hroot] at hz hbit ⊢
      exact Nat.or_lt_two_pow hz hbit
    · exact lt_of_le_of_lt Nat.and_le_left hz
    · exact hz

/-- Summary of one `succ_write` frame over buffer `s`: level, range and bound
facts, and the ancestor id of the written element, whose finest digit is the
written local index and whose coarser digits walk `s`'s cube-ids from the
written parent type. -/
lemma succ_write_props (c : T8Conn) (hc : ConnGood c) (s : Dtri) (j li tp1 : Nat)
    (htp : tp1 < c.numTypes) (hli : li < 2 ^ c.dim)
    (hx : s.x < T8_DTRI_ROOT_LEN) (hy : s.y < T8_DTRI_ROOT_LEN)
    (hz : s.z < T8_DTRI_ROOT_LEN) (hj21 : j + 1 ≤ T8_DTRI_MAXLEVEL) :
    (succ_write c s j li tp1).level = j + 1 ∧
    (succ_write c s j li tp1).type < c.numTypes ∧
    (succ_write c s j li tp1).x < T8_DTRI_ROOT_LEN ∧
    (succ_write c s j li tp1).y < T8_DTRI_ROOT_LEN ∧
    (succ_write c s j li tp1).z < T8_DTRI_ROOT_LEN ∧
    anc_id c (succ_write c s j li tp1) (j + 1) =
      li + 2 ^ c.dim * linear_id_aux c s j tp1 := by
  have hroot32 : T8_DTRI_ROOT_LEN < 4294967296 := by decide
  have hx32 : s.x < 4294967296 := lt_trans hx hroot32
  have hy32 : s.y < 4294967296 := lt_trans hy hroot32
  have hz32 : s.z < 4294967296 := lt_trans hz hroot32
  have hP2 := hc.2.2.1 tp1 htp li hli
  have hcw : compute_cubeid c (succ_write c s j li tp1) (j + 1) =
      c.parenttype_Iloc_to_cid tp1 li :=
    cubeid_succ_write_own c hc.1 s j li tp1 hP2.2.1 hx32 hy32 hz32
  have hwlev : j + 1 ≤ (succ_write c s j li tp1).level :=
    Nat.le_of_eq (succ_write_level c s j li tp1).symm
  have hwty : type_at_spec c (succ_write c s j li tp1) (j + 1) =
      c.parenttype_Iloc_to_type tp1 li := by
    have h := type_at_spec_own c (succ_write c s j li tp1)
    rw [succ_write_level, succ_write_type] at h
    exact h
  have hwtj : type_at_spec c (succ_write c s j li tp1) j = tp1 := by
    have hs := type_at_spec_step c (succ_write c s j li tp1) (j + 1) (by omega) hwlev
    rw [Nat.add_sub_cancel] at hs
    rw [hs, hcw, hwty]
    exact hP2.2.2.2
  have hlow := cubeid_succ_write_lower c s j li tp1 hx32 hy32 hz32 hj21
  obtain ⟨hbx, hby, hbz⟩ := succ_write_bounds c s j li tp1 hx hy hz hj21
  refine ⟨succ_write_level c s j li tp1, ?_, hbx, hby, hbz, ?_⟩
  · rw [succ_write_type]
    exact hP2.1
  · rw [anc_id_step c (succ_write c s j li tp1) j hwlev, hcw, hwty, hP2.2.2.1]
    have hcongr : linear_id_aux c (succ_write c s j li tp1) j tp1 =
        linear_id_aux c s j tp1 :=
      linear_id_aux_congr c (succ_write c s j li tp1) s j
        (fun i hi1 hi2 => hlow i hi2) tp1
    unfold anc_id
    rw [hwtj, hcongr]

/-- The `succ_pred` recursion with increment `+1`, called on a buffer equal to
`t` at a level `j` in `[1, t.level]` on which all of `t`'s ancestors down to
level `j` keep `t`'s type, produces the level-`j` element whose ancestor id is
one more than that of `t`'s level-`j` ancestor — provided that ancestor is not
the last element of the uniform level-`j` grid. -/
lemma succ_pred_plus_one (c : T8Conn) (hc : ConnGood c) :
    ∀ j, ∀ t : Dtri, 1 ≤ j → j ≤ t.level → t.level ≤ T8_DTRI_MAXLEVEL →
      t.type < c.numTypes →
      t.x < T8_DTRI_ROOT_LEN → t.y < T8_DTRI_ROOT_LEN → t.z < T8_DTRI_ROOT_LEN →
      (∀ i, j ≤ i → i ≤ t.level → type_at_spec c t i = t.type) →
      anc_id c t j + 1 < (2 ^ c.dim) ^ j →
      (t8_dtri_succ_pred_recursion c t t j 1).level = j ∧
      (t8_dtri_succ_pred_recursion c t t j 1).type < c.numTypes ∧
      (t8_dtri_succ_pred_recursion c t t j 1).x < T8_DTRI_ROOT_LEN ∧
      (t8_dtri_succ_pred_recursion c t t j 1).y < T8_DTRI_ROOT_LEN ∧
      (t8_dtri_succ_pred_recursion c t t j 1).z < T8_DTRI_ROOT_LEN ∧
      anc_id c (t8_dtri_succ_pred_recursion c t t j 1) j = anc_id c t j + 1 := by
  intro j
  induction j with
  | zero =>
    intro t h1
    exact absurd h1 (by decide)
  | succ j ih =>
    intro t _ hjl hlev hty hx hy hz hA hlast
    have hct : compute_type c t (j + 1) = t.type := compute_type_le c t (j + 1) (by omega) hjl
    have hcidlt : compute_cubeid c t (j + 1) < 2 ^ c.dim := compute_cubeid_lt c hc.1 t (j + 1)
    have hl0 := (hc.2.1 _ hcidlt _ hty).2.1
    have hAty : type_at_spec c t (j + 1) = t.type := hA (j + 1) (le_refl _) hjl
    have hstep2 : anc_id c t (j + 1) =
        c.type_cid_to_Iloc t.type (compute_cubeid c t (j + 1)) + 2 ^ c.dim * anc_id c t j := by
      rw [anc_id_step c t j hjl, hAty]
    have htplt : type_at_spec c t j < c.numTypes := type_at_spec_lt c hc t hty _
    have hj21 : j + 1 ≤ T8_DTRI_MAXLEVEL := le_trans hjl hlev
    by_cases hw : (c.type_cid_to_Iloc (compute_type c t (j + 1)) (compute_cubeid c t (j + 1)) +
        1) % 2 ^ c.dim = 0
    · have hw0 := hw
      rw [hct] at hw0
      have hl0v : c.type_cid_to_Iloc t.type (compute_cubeid c t (j + 1)) + 1 = 2 ^ c.dim := by
        rcases Nat.lt_or_ge
            (c.type_cid_to_Iloc t.type (compute_cubeid c t (j + 1)) + 1) (2 ^ c.dim) with h | h
        · rw [Nat.mod_eq_of_lt h] at hw0
          simp at hw0
        · exact Nat.le_antisymm (Nat.succ_le_of_lt hl0) h
      have hmul : anc_id c t (j + 1) + 1 = 2 ^ c.dim * (anc_id c t j + 1) := by
        have he : anc_id c t (j + 1) + 1 =
            (c.type_cid_to_Iloc t.type (compute_cubeid c t (j + 1)) + 1) +
              2 ^ c.dim * anc_id c t j := by
          rw [hstep2]
          ring
        rw [he, hl0v]
        ring
      rcases Nat.eq_zero_or_pos j with rfl | hj1
      · exfalso
        rw [hmul, pow_succ, pow_zero, Nat.one_mul] at hlast
        have h00 : anc_id c t 0 = 0 := rfl
        rw [h00, Nat.zero_add, Nat.mul_one] at hlast
        exact lt_irrefl _ hlast
      · have hAj : type_at_spec c t j = t.type := by
          have hs := type_at_spec_step c t (j + 1) (by omega) hjl
          rw [Nat.add_sub_cancel] at hs
          rw [hs, hAty]
          exact hc.2.2.2 t.type hty (compute_cubeid c t (j + 1)) hcidlt
            (Nat.eq_sub_of_add_eq hl0v)
        have hA' : ∀ i, j ≤ i → i ≤ t.level → type_at_spec c t i = t.type := by
          intro i hi1 hi2
          rcases Nat.eq_or_lt_of_le hi1 with h | h
          · rw [← h]
            exact hAj
          · exact hA i h hi2
        have hlast' : anc_id c t j + 1 < (2 ^ c.dim) ^ j := by
          have hlt2 : 2 ^ c.dim * (anc_id c t j + 1) < 2 ^ c.dim * (2 ^ c.dim) ^ j := by
            rw [← hmul, ← pow_succ']
            exact hlast
          exact lt_of_mul_lt_mul_left hlt2 (Nat.zero_le _)
        obtain ⟨hrl, hrt, hrx, hry, hrz, hrid⟩ :=
          ih t hj1 (by omega) hlev hty hx hy hz hA' hlast'
        rw [succ_pred_step_wrap c t t j hw]
        have hrty : type_at_spec c (t8_dtri_succ_pred_recursion c t t j 1) j =
            (t8_dtri_succ_pred_recursion c t t j 1).type := by
          have h := type_at_spec_own c (t8_dtri_succ_pred_recursion c t t j 1)
          rw [hrl] at h
          exact h
        obtain ⟨hwl, hwt, hwx, hwy, hwz, hwid⟩ :=
          succ_write_props c hc (t8_dtri_succ_pred_recursion c t t j 1) j 0
            (t8_dtri_succ_pred_recursion c t t j 1).type hrt
            (Nat.pos_pow_of_pos _ (by norm_num)) hrx hry hrz hj21
        refine ⟨hwl, hwt, hwx, hwy, hwz, ?_⟩
        rw [hwid]
        have hgl : linear_id_aux c (t8_dtri_succ_pred_recursion c t t j 1) j
            (t8_dtri_succ_pred_recursion c t t j 1).type =
            anc_id c (t8_dtri_succ_pred_recursion c t t j 1) j := by
          unfold anc_id
          rw [hrty]
        rw [hgl, hrid, hmul, Nat.zero_add]
    · have hw0 := hw
      rw [hct] at hw0
      have hlt : c.type_cid_to_Iloc t.type (compute_cubeid c t (j + 1)) + 1 < 2 ^ c.dim := by
        rcases Nat.lt_or_ge
            (c.type_cid_to_Iloc t.type (compute_cubeid c t (j + 1)) + 1) (2 ^ c.dim) with h | h
        · exact h
        · exfalso
          apply hw0
          have he : c.type_cid_to_Iloc t.type (compute_cubeid c t (j + 1)) + 1 = 2 ^ c.dim :=
            Nat.le_antisymm (Nat.succ_le_of_lt hl0) h
          rw [he, Nat.mod_self]
      have hli2 : (c.type_cid_to_Iloc t.type (compute_cubeid c t (j + 1)) + 1) % 2 ^ c.dim =
          c.type_cid_to_Iloc t.type (compute_cubeid c t (j + 1)) + 1 := Nat.mod_eq_of_lt hlt
      have htp1 : c.cid_type_to_parenttype (compute_cubeid c t (j + 1)) t.type =
          type_at_spec c t j := by
        have hs := type_at_spec_step c t (j + 1) (by omega) hjl
        rw [Nat.add_sub_cancel] at hs
        rw [hs, hAty]
      rw [succ_pred_step_no_wrap c t t j hw, hct, hli2, htp1]
      obtain ⟨hwl, hwt, hwx, hwy, hwz, hwid⟩ :=
        succ_write_props c hc t j
          (c.type_cid_to_Iloc t.type (compute_cubeid c t (j + 1)) + 1)
          (type_at_spec c t j) htplt hlt hx hy hz hj21
      refine ⟨hwl, hwt, hwx, hwy, hwz, ?_⟩
      rw [hwid, hstep2]
      unfold anc_id
      ring

/-- C4 (counterexample to the original claim): on the valid level-2 triangle
`t = (type 0, x = 2^20, y = 2^19)` at level `ℓ = 1 < t.level`, the successor is
not the SFC step: `t8_dtri_linear_id` ignores levels below the element's own
level (it returns the full level-2 id, 9), and
`linear_id(successor(t, 1), 1) = 2`, which differs from `linear_id(t, 1) + 1`;
the level-1 ancestor of `t` is element 2 of the four level-1 elements (so `t`
is not last in any reading), yet even the ancestor id is not advanced:
`anc_id(successor(t, 1), 1) = 2 = anc_id(t, 1)`, because the wrong
`compute_type` feeds the wrong local index to the increment. -/
theorem C4_successor_skips_at_coarser_level :
    t8_dtri_valid t8_dtri_conn ⟨2, 0, 1048576, 524288, 0⟩ ∧
    1 ≤ (⟨2, 0, 1048576, 524288, 0⟩ : Dtri).level ∧
    anc_id t8_dtri_conn ⟨2, 0, 1048576, 524288, 0⟩ 1 = 2 ∧
    t8_dtri_linear_id t8_dtri_conn ⟨2, 0, 1048576, 524288, 0⟩ 1 = 9 ∧
    t8_dtri_linear_id t8_dtri_conn
        (t8_dtri_successor t8_dtri_conn ⟨2, 0, 1048576, 524288, 0⟩ 1) 1 = 2 ∧
    t8_dtri_linear_id t8_dtri_conn
        (t8_dtri_successor t8_dtri_conn ⟨2, 0, 1048576, 524288, 0⟩ 1) 1 ≠
      t8_dtri_linear_id t8_dtri_conn ⟨2, 0, 1048576, 524288, 0⟩ 1 + 1 ∧
    anc_id t8_dtri_conn
        (t8_dtri_successor t8_dtri_conn ⟨2, 0, 1048576, 524288, 0⟩ 1) 1 ≠
      anc_id t8_dtri_conn ⟨2, 0, 1048576, 524288, 0⟩ 1 + 1 := by
  refine ⟨by decide, by decide, by decide, by decide, by decide, by decide, by decide⟩

/-- C4 (amended): the successor is the SFC step `id ↦ id + 1` of the uniform
level-`ℓ` refinement for quadrants at every level `ℓ`, and for triangles at
the element's own level `ℓ = t.level` (for `ℓ < t.level` the original claim
fails, see the counterexample): whenever the element is not the last one,
`linear_id(successor(t, ℓ), ℓ) = linear_id(t, ℓ) + 1`. -/
theorem C4_successor_is_sfc_step_amended :
    (∀ (q : Pquad) (level : Nat),
        p4est_quadrant_linear_id q level + 1 < 4 ^ level →
        p4est_quadrant_linear_id (t8_default_quad_successor q level) level =
          p4est_quadrant_linear_id q level + 1) ∧
    (∀ t : Dtri, t8_dtri_valid t8_dtri_conn t → 1 ≤ t.level →
        t8_dtri_linear_id t8_dtri_conn t t.level + 1 < 4 ^ t.level →
        t8_dtri_linear_id t8_dtri_conn (t8_dtri_successor t8_dtri_conn t t.level) t.level =
          t8_dtri_linear_id t8_dtri_conn t t.level + 1) := by
  refine ⟨fun q level h => quad_successor_id q level h, ?_⟩
  intro t hv h1 hlast
  obtain ⟨hlev, hty, hx, hy, hz, halign, hchain⟩ := hv
  have hz' : t.z < T8_DTRI_ROOT_LEN := by
    rw [if_neg (by decide)] at hz
    rw [hz]
    decide
  have hA : ∀ i, t.level ≤ i → i ≤ t.level → type_at_spec t8_dtri_conn t i = t.type := by
    intro i hi1 hi2
    have he : i = t.level := le_antisymm hi2 hi1
    rw [he, type_at_spec_own]
  have hanc : t8_dtri_linear_id t8_dtri_conn t t.level = anc_id t8_dtri_conn t t.level :=
    anc_id_own t8_dtri_conn t
  have hlast' : anc_id t8_dtri_conn t t.level + 1 < (2 ^ t8_dtri_conn.dim) ^ t.level := by
    rw [← hanc]
    have h4 : ((2 : Nat) ^ t8_dtri_conn.dim) ^ t.level = 4 ^ t.level := rfl
    rw [h4]
    exact hlast
  obtain ⟨hsl, _, _, _, _, hsid⟩ :=
    succ_pred_plus_one t8_dtri_conn t8_dtri_conn_good t.level t h1 (le_refl _) hlev hty
      hx hy hz' hA hlast'
  unfold t8_dtri_successor
  have h := anc_id_own t8_dtri_conn (t8_dtri_succ_pred_recursion t8_dtri_conn t t t.level 1)
  rw [hsl] at h
  rw [h, hsid, hanc]

/-- C4 witness: the amended theorem applied to the level-1 quadrant at the
origin and to the level-1 triangle at the origin — both have linear id 0, are
not last, and their successors have linear id 1. -/
theorem C4_successor_is_sfc_step_amended_witness :
    (p4est_quadrant_linear_id ⟨1, 0, 0⟩ 1 + 1 < 4 ^ 1 ∧
      p4est_quadrant_linear_id (t8_default_quad_successor ⟨1, 0, 0⟩ 1) 1 =
        p4est_quadrant_linear_id ⟨1, 0, 0⟩ 1 + 1) ∧
    (t8_dtri_valid t8_dtri_conn ⟨1, 0, 0, 0, 0⟩ ∧ 1 ≤ (1 : Nat) ∧
      t8_dtri_linear_id t8_dtri_conn ⟨1, 0, 0, 0, 0⟩ 1 + 1 < 4 ^ 1 ∧
      t8_dtri_linear_id t8_dtri_conn (t8_dtri_successor t8_dtri_conn ⟨1, 0, 0, 0, 0⟩ 1) 1 =
        t8_dtri_linear_id t8_dtri_conn ⟨1, 0, 0, 0, 0⟩ 1 + 1) :=
  ⟨⟨by decide, C4_successor_is_sfc_step_amended.1 ⟨1, 0, 0⟩ 1 (by decide)⟩,
   ⟨by decide, by decide, by decide,
     C4_successor_is_sfc_step_amended.2 ⟨1, 0, 0, 0, 0⟩ (by decide) (by decide) (by decide)⟩⟩

end T8Code
